import Mathlib

/-!
# A shallow embedding of the yarl2 character-grid rendering engine

This file embeds the CPU-observable state and the grid/instance/snapshot
operations of `src/lib.rs` (the `Window` type and its methods) and proves the
specification claims about them.

Modelling conventions:
* Byte values (`u8`) are modelled as `Nat`; no arithmetic is performed on the
  stored bytes, so no wraparound is involved.
* The four per-cell CPU buffers (`buffer_chars`, `buffer_colors_fg`,
  `buffer_colors_bg`, `set_buffer`) are modelled as total functions from the
  flat index `x + y * cols` to the stored value.  The two color buffers store
  four consecutive bytes per cell at byte offset `index * 4`; we model them
  per-cell as RGBA quadruples, which is the same data grouped the way the
  source reads and writes it (always four bytes at a time).
* Coordinates arrive in the source either as `i32` or through
  `TryInto<usize>`; a negative coordinate fails the conversion and the setter
  is a no-op.  We model coordinates as `Int` with an explicit `0 ≤ _` test.
* A Rust `panic!`/`assert!`/out-of-range `Vec` index is modelled by returning
  `none` from an `Option`-valued function.
* `f32`/`f64` values (instance positions, cursor positions) are modelled as
  exact rationals `ℚ`.
* GPU-resident copies of the buffers (textures and the instance buffer) are
  modelled as extra `gpu*` fields; `Window.update` copies the CPU fields onto
  them, exactly as `Window::update` uploads every buffer.
-/

namespace Yarl2

/-- An RGBA color, `(r, g, b, a)`: the `Col` type of the source
(`pub type Col = (u8, u8, u8, u8)`). -/
abbrev Col := Nat × Nat × Nat × Nat

/-- One floating glyph record (`InstanceData` in the source): a position in
fractional cell units (`[f32; 2]`, modelled as rationals), the `[set, char]`
byte pair, and the two colors. -/
structure InstanceData where
  position : ℚ × ℚ
  set_char : Nat × Nat
  fg : Col
  bg : Col
deriving DecidableEq

/-- The zero instance (`InstanceData::zeroed()` from bytemuck), used to fill
the freshly created instance vector. -/
def InstanceData.zeroed : InstanceData :=
  { position := (0, 0), set_char := (0, 0), fg := (0, 0, 0, 0), bg := (0, 0, 0, 0) }

/-- A captured rectangular region (`Snapshot` in the source).  `size` is
`(width, height)`.  `fg`/`bg` hold one RGBA quadruple per cell (the source
stores the same four bytes per cell consecutively in a flat `Vec<u8>`);
`set`/`text` hold one byte per cell.  All four lists are pushed column by
column: the capture loop iterates `x` in the outer loop and `y` in the inner
loop, so cell `(x0+i, y0+j)` of the source lands at list position
`i * height + j`. -/
structure Snapshot where
  begin_ : Nat × Nat
  size : Nat × Nat
  fg : List Col
  bg : List Col
  set : List Nat
  text : List Nat

/-- The CPU-observable state of `Window` from `src/lib.rs`.

* `cols`/`rows` are `config_chargrid.size.0` / `.1`.
* the four buffer fields are the CPU-side cell buffers, indexed by the flat
  index `x + y * cols`;
* `dirty` is the dirty flag;
* `instances` is the instance vector (its length is fixed at creation to
  `config.max_instances`, recorded here as `max_instances`) and
  `instance_count` is the live-count cursor;
* `num_fonts` is `text_texture.size().depth_or_array_layers`, i.e. the number
  of configured font atlas layers;
* the `gpu*` fields model the GPU-resident copies that `Window::update`
  uploads into (the four channel textures and the instance buffer). -/
structure Window where
  cols : Nat
  rows : Nat
  buffer_chars : Nat → Nat
  buffer_colors_fg : Nat → Col
  buffer_colors_bg : Nat → Col
  set_buffer : Nat → Nat
  dirty : Bool
  instances : Nat → InstanceData
  max_instances : Nat
  instance_count : Nat
  num_fonts : Nat
  gpu_chars : Nat → Nat
  gpu_fg : Nat → Col
  gpu_bg : Nat → Col
  gpu_set : Nat → Nat
  gpu_instances : Nat → InstanceData

/-- Modelled from the spec: the glyph codec `codepage_437::CP437_WINGDINGS.encode`
is an external crate, not part of this repository's sources.  Per spec §4.1 it
maps a restricted character set into single-byte indices of a 256-slot cp437
code page and returns `none` for unmappable characters.  For concreteness we
model the printable-ASCII subrange `0x20`–`0x7E`, on which cp437 agrees with
ASCII, as encodable to the character's own code point, and every other
character as unencodable.  Every claim below is conditional on the result of
`encode`, so none of them depends on the exact supported set. -/
def encode (c : Char) : Option Nat :=
  if 0x20 ≤ c.toNat ∧ c.toNat ≤ 0x7E then some c.toNat else none

/-- Bounds check and compare-and-write for `Window::set_fg_at`, after the
`TryInto<usize>` conversions have succeeded. -/
def Window.setFgCore (w : Window) (x y : Nat) (fg : Col) : Window :=
  if x < w.cols ∧ y < w.rows then
    if w.buffer_colors_fg (x + y * w.cols) ≠ fg then
      { w with
        buffer_colors_fg := fun i => if i = x + y * w.cols then fg else w.buffer_colors_fg i,
        dirty := true }
    else w
  else w

/-- `Window::set_fg_at`: convert the coordinates (failing means a negative
coordinate: the whole call is a no-op), then bounds-check and write. -/
def Window.set_fg_at (w : Window) (x y : Int) (fg : Col) : Window :=
  if 0 ≤ x ∧ 0 ≤ y then w.setFgCore x.toNat y.toNat fg else w

/-- Bounds check and compare-and-write for `Window::set_bg_at`. -/
def Window.setBgCore (w : Window) (x y : Nat) (bg : Col) : Window :=
  if x < w.cols ∧ y < w.rows then
    if w.buffer_colors_bg (x + y * w.cols) ≠ bg then
      { w with
        buffer_colors_bg := fun i => if i = x + y * w.cols then bg else w.buffer_colors_bg i,
        dirty := true }
    else w
  else w

/-- `Window::set_bg_at`. -/
def Window.set_bg_at (w : Window) (x y : Int) (bg : Col) : Window :=
  if 0 ≤ x ∧ 0 ≤ y then w.setBgCore x.toNat y.toNat bg else w

/-- Bounds check and compare-and-write for `Window::set_char_at_bin` (the raw
byte variant that skips the cp437 conversion). -/
def Window.setCharBinCore (w : Window) (x y : Nat) (character : Nat) : Window :=
  if x < w.cols ∧ y < w.rows then
    if w.buffer_chars (x + y * w.cols) ≠ character then
      { w with
        buffer_chars := fun i => if i = x + y * w.cols then character else w.buffer_chars i,
        dirty := true }
    else w
  else w

/-- `Window::set_char_at_bin`. -/
def Window.set_char_at_bin (w : Window) (x y : Int) (character : Nat) : Window :=
  if 0 ≤ x ∧ 0 ≤ y then w.setCharBinCore x.toNat y.toNat character else w

/-- Bounds check, cp437 encoding, and compare-and-write for
`Window::set_char_at`.  The source checks bounds first and then encodes; an
unencodable character is silently dropped. -/
def Window.setCharCore (w : Window) (x y : Nat) (character : Char) : Window :=
  if x < w.cols ∧ y < w.rows then
    match encode character with
    | some char_u8 =>
      if w.buffer_chars (x + y * w.cols) ≠ char_u8 then
        { w with
          buffer_chars := fun i => if i = x + y * w.cols then char_u8 else w.buffer_chars i,
          dirty := true }
      else w
    | none => w
  else w

/-- `Window::set_char_at`. -/
def Window.set_char_at (w : Window) (x y : Int) (character : Char) : Window :=
  if 0 ≤ x ∧ 0 ≤ y then w.setCharCore x.toNat y.toNat character else w

/-- Bounds check and compare-and-write for `Window::set_set_at`, after the
assertion has passed and the coordinate conversions have succeeded. -/
def Window.setSetCore (w : Window) (x y : Nat) (value : Nat) : Window :=
  if x < w.cols ∧ y < w.rows then
    if w.set_buffer (x + y * w.cols) ≠ value then
      { w with
        set_buffer := fun i => if i = x + y * w.cols then value else w.set_buffer i,
        dirty := true }
    else w
  else w

/-- `Window::set_set_at`.  The source first runs
`assert!(value < k as u8)` where `k` is the `u32` layer count of the font
atlas array (`num_fonts`); the cast truncates, so the assertion compares
against `num_fonts % 256`.  The assertion runs before the coordinate
conversion and the bounds check, so an invalid value panics (`none`) for
every `(x, y)`. -/
def Window.set_set_at (w : Window) (x y : Int) (value : Nat) : Option Window :=
  if value < w.num_fonts % 256 then
    some (if 0 ≤ x ∧ 0 ≤ y then w.setSetCore x.toNat y.toNat value else w)
  else none

/-- `Window::clear`: fills the char/fg/bg/set buffers with zero, resets the
instance count, and unconditionally marks dirty. -/
def Window.clear (w : Window) : Window :=
  { w with
    dirty := true,
    buffer_chars := fun _ => 0,
    buffer_colors_bg := fun _ => (0, 0, 0, 0),
    buffer_colors_fg := fun _ => (0, 0, 0, 0),
    set_buffer := fun _ => 0,
    instance_count := 0 }

/-- `Window::add_instance`: appends at the cursor when
`instance_count < instances.len()` (the vector's length is fixed at creation
to `max_instances`), marking dirty and bumping the cursor; otherwise leaves
the window untouched and reports failure. -/
def Window.add_instance (w : Window) (inst : InstanceData) : Window × Bool :=
  if w.instance_count < w.max_instances then
    ({ w with
        instances := fun i => if i = w.instance_count then inst else w.instances i,
        dirty := true,
        instance_count := w.instance_count + 1 }, true)
  else (w, false)

/-- Iterated `add_instance` of the same record, dropping the success flags:
`addRepeat w inst n` is the window after `n` consecutive append attempts. -/
def addRepeat (w : Window) (inst : InstanceData) : Nat → Window
  | 0 => w
  | n + 1 => ((addRepeat w inst n).add_instance inst).1

/-- `Window::update`: unconditionally uploads all four channel buffers and the
instance buffer to their GPU copies. -/
def Window.update (w : Window) : Window :=
  { w with
    gpu_chars := w.buffer_chars,
    gpu_fg := w.buffer_colors_fg,
    gpu_bg := w.buffer_colors_bg,
    gpu_set := w.set_buffer,
    gpu_instances := w.instances }

/-- `Window::draw`, restricted to its effect on the modelled state: when the
dirty flag is set it calls `update` (the full upload) before anything else;
the render passes and the presentation do not touch any modelled field, and
the surface-error path (`get_current_texture` failing) happens after the
upload and also leaves the modelled state alone.  Note the source never
assigns `dirty = false` anywhere. -/
def Window.draw (w : Window) : Window :=
  if w.dirty then w.update else w

/-- The list `[g lo, g (lo+1), …, g (lo+n-1)]`: the values pushed by a Rust
loop `for v in lo..lo+n`. -/
def loopList {α : Type} (g : Nat → α) : Nat → Nat → List α
  | _, 0 => []
  | lo, n + 1 => g lo :: loopList g (lo + 1) n

/-- The values pushed by the nested capture loop of `Window::take_snapshot`:
outer loop over `n` columns starting at `x`, inner loop over `ht` rows
starting at `y`, pushing `f column row` for each cell. -/
def flatGrid {α : Type} (f : Nat → Nat → α) (y ht : Nat) : Nat → Nat → List α
  | _, 0 => []
  | x, n + 1 => loopList (f x) y ht ++ flatGrid f y ht (x + 1) n

/-- `Window::take_snapshot`: panics (`none`) when `x + width ≥ cols` or
`y + height ≥ rows`; otherwise deep-copies the region, pushing the cells
column by column (`x` outer, `y` inner). -/
def Window.take_snapshot (w : Window) (x y width height : Nat) : Option Snapshot :=
  if w.cols ≤ x + width ∨ w.rows ≤ y + height then none
  else
    some
      { begin_ := (x, y)
        size := (width, height)
        fg := flatGrid (fun xi yi => w.buffer_colors_fg (xi + yi * w.cols)) y height x width
        bg := flatGrid (fun xi yi => w.buffer_colors_bg (xi + yi * w.cols)) y height x width
        set := flatGrid (fun xi yi => w.set_buffer (xi + yi * w.cols)) y height x width
        text := flatGrid (fun xi yi => w.buffer_chars (xi + yi * w.cols)) y height x width }

/-- Fold a per-cell `Option`-valued operation over a list of positions,
propagating a panic (`none`). -/
def foldCells (step : Window → Int × Int → Option Window) : Window → List (Int × Int) → Option Window
  | w, [] => some w
  | w, p :: ps =>
    match step w p with
    | none => none
    | some w' => foldCells step w' ps

/-- Positions visited by an inner Rust loop `for v in y..y+n` at a fixed
column `x`. -/
def colPositions (x y : Int) : Nat → List (Int × Int)
  | 0 => []
  | n + 1 => (x, y) :: colPositions x (y + 1) n

/-- Positions of the nested loop `for x in x..x+n { for y in y..y+ht }` in
iteration order (`x` outer, `y` inner). -/
def gridPositions (x y : Int) (ht : Nat) : Nat → List (Int × Int)
  | 0 => []
  | n + 1 => colPositions x y ht ++ gridPositions (x + 1) y ht n

/-- The per-cell body of `Window::apply_snapshot` at grid position `p`, where
`(ox, oy)` is the origin passed to `apply_snapshot`.  The source re-checks
`x - bx < size.0 && y - by < size.1` inside the loop, recomputes the flat
snapshot index `(x - bx) * size.1 + (y - by)` (`size.1` is the height), and
then writes char, set, fg, bg in that order through the normal setters.  A
`Vec` index out of range or the `set_set_at` assertion failing is a panic
(`none`); the source would have written some channels of the cell before such
a panic, but no post-panic state is observable, so the partial writes are
dropped. -/
def snapWrite (tv sv : Nat) (fv bv : Col) (x y : Int) (w : Window) : Option Window :=
  match (w.set_char_at_bin x y tv).set_set_at x y sv with
  | none => none
  | some w2 => some ((w2.set_fg_at x y fv).set_bg_at x y bv)

def snapStep (s : Snapshot) (ox oy : Int) (w : Window) (p : Int × Int) : Option Window :=
  match p with
  | (x, y) =>
    if x - ox < (s.size.1 : Int) ∧ y - oy < (s.size.2 : Int) then
      match s.text[((x - ox) * (s.size.2 : Int) + (y - oy)).toNat]?,
          s.set[((x - ox) * (s.size.2 : Int) + (y - oy)).toNat]?,
          s.fg[((x - ox) * (s.size.2 : Int) + (y - oy)).toNat]?,
          s.bg[((x - ox) * (s.size.2 : Int) + (y - oy)).toNat]? with
      | some tv, some sv, some fv, some bv => snapWrite tv sv fv bv x y w
      | _, _, _, _ => none
    else some w

/-- `Window::apply_snapshot`: iterate the snapshot rectangle (`x` outer from
`x` over `size.0` columns, `y` inner over `size.1` rows) and stamp each cell
through the bounds-checked setters. -/
def Window.apply_snapshot (w : Window) (snapshot : Snapshot) (x y : Int) : Option Window :=
  foldCells (snapStep snapshot x y) w (gridPositions x y snapshot.size.2 snapshot.size.1)

/-- The body of the character loop in `Window::print_at_set` for the
character at column `x`, row `y`: encode (an unencodable character does
nothing but the column is still consumed), bounds-check, compare-and-write
the glyph, then apply the optional fg/bg/set overrides through the setters
(the coordinates are already `usize` here, so the conversions are identity).
The `set` override goes through the `set_set_at` assertion and can panic. -/
def coreFgOpt (fg : Option Col) (x y : Nat) (w : Window) : Window :=
  match fg with
  | none => w
  | some f => w.setFgCore x y f

def coreBgOpt (bg : Option Col) (x y : Nat) (w : Window) : Window :=
  match bg with
  | none => w
  | some b => w.setBgCore x y b

def coreSetOpt (st : Option Nat) (x y : Nat) (w : Window) : Option Window :=
  match st with
  | none => some w
  | some s => if s < w.num_fonts % 256 then some (w.setSetCore x y s) else none

def printOne (w : Window) (x y : Nat) (c : Char) (fg bg : Option Col) (st : Option Nat) :
    Option Window :=
  match encode c with
  | none => some w
  | some char_u8 =>
    if x < w.cols ∧ y < w.rows then
      coreSetOpt st x y (coreBgOpt bg x y (coreFgOpt fg x y (w.setCharBinCore x y char_u8)))
    else some w

/-- The character loop of `Window::print_at_set`: the `i`-th character is
processed at column `x + i`. -/
def printLoop (w : Window) (x y : Nat) (fg bg : Option Col) (st : Option Nat) :
    List Char → Option Window
  | [] => some w
  | c :: cs =>
    match printOne w x y c fg bg st with
    | none => none
    | some w' => printLoop w' (x + 1) y fg bg st cs

/-- `Window::print_at_set`: convert the starting coordinates (a failing
conversion, i.e. a negative coordinate, makes the whole call a no-op), then
run the character loop. -/
def Window.print_at_set (w : Window) (x y : Int) (text : List Char) (fg bg : Option Col)
    (st : Option Nat) : Option Window :=
  if 0 ≤ x ∧ 0 ≤ y then printLoop w x.toNat y.toNat fg bg st text else some w

/-- Apply an optional fg override at a position (one arm of the `set!` macro
in `Window::draw_rect`). -/
def applyFgOpt (fg : Option Col) (x y : Int) (w : Window) : Window :=
  match fg with
  | none => w
  | some f => w.set_fg_at x y f

/-- Apply an optional bg override at a position. -/
def applyBgOpt (bg : Option Col) (x y : Int) (w : Window) : Window :=
  match bg with
  | none => w
  | some b => w.set_bg_at x y b

/-- Apply an optional character override at a position. -/
def applyChOpt (ch : Option Char) (x y : Int) (w : Window) : Window :=
  match ch with
  | none => w
  | some c => w.set_char_at x y c

/-- Apply an optional font-selector override at a position; the underlying
`set_set_at` can panic. -/
def applySetOpt (st : Option Nat) (x y : Int) (w : Window) : Option Window :=
  match st with
  | none => some w
  | some s => w.set_set_at x y s

/-- The `set!` macro body of `Window::draw_rect`: apply the optional fg, bg,
char, and set fields, in that order, at one cell. -/
def drawRectCell (fg bg : Option Col) (ch : Option Char) (st : Option Nat) (w : Window)
    (p : Int × Int) : Option Window :=
  match p with
  | (x, y) => applySetOpt st x y (applyChOpt ch x y (applyBgOpt bg x y (applyFgOpt fg x y w)))

/-- Positions visited by the top/bottom loop of the unfilled branch of
`Window::draw_rect`: `for x in x..x+width \x7b set!(x, y); set!(x, y+height-1) \x7d`,
where `y2 = y + height - 1`. -/
def tbPositions (x y y2 : Int) : Nat → List (Int × Int)
  | 0 => []
  | n + 1 => (x, y) :: (x, y2) :: tbPositions (x + 1) y y2 n

/-- Positions visited by the left/right loop of the unfilled branch:
`for y in y..y+height \x7b set!(x, y); set!(x+width-1, y) \x7d`, where
`x2 = x + width - 1`. -/
def lrPositions (x x2 y : Int) : Nat → List (Int × Int)
  | 0 => []
  | n + 1 => (x, y) :: (x2, y) :: lrPositions x x2 (y + 1) n

/-- `Window::draw_rect`: when filled, apply the optional fields at every cell
of the rectangle (`x` outer, `y` inner); when unfilled, run the top/bottom
loop and then the left/right loop.  An `i32` range `a..a+n` is empty when
`n ≤ 0`, hence the `Int.toNat` iteration counts. -/
def Window.draw_rect (w : Window) (x y width height : Int) (filled : Bool) (fg bg : Option Col)
    (ch : Option Char) (st : Option Nat) : Option Window :=
  if filled then
    foldCells (drawRectCell fg bg ch st) w (gridPositions x y height.toNat width.toNat)
  else
    foldCells (drawRectCell fg bg ch st) w
      (tbPositions x y (y + height - 1) width.toNat ++
        lrPositions x (x + width - 1) y height.toNat)

/-- The pointer-to-cell conversion of the `CursorMoved` arm of
`EventLoopWrapper::window_event`: subtract half the padding per axis, divide
by the scale per axis, divide by the glyph pixel size per axis, floor.  The
source computes in `f64`; we model the arithmetic with exact rationals. -/
def cursor_to_cell (px py : ℚ) (padding scale : Nat × Nat) (char_width char_height : Nat) :
    Int × Int :=
  let x := px - (padding.1 : ℚ) / 2
  let y := py - (padding.2 : ℚ) / 2
  let x := x / (scale.1 : ℚ)
  let y := y / (scale.2 : ℚ)
  let x := x / (char_width : ℚ)
  let y := y / (char_height : ℚ)
  (⌊x⌋, ⌊y⌋)

/-! ## Basic invariants of the setters -/

/-- Two windows share the immutable configuration data (grid dimensions, font
layer count, instance capacity). -/
def SameShape (w w' : Window) : Prop :=
  w'.cols = w.cols ∧ w'.rows = w.rows ∧ w'.num_fonts = w.num_fonts ∧
    w'.max_instances = w.max_instances

theorem SameShape.srefl (w : Window) : SameShape w w :=
  ⟨Eq.refl _, Eq.refl _, Eq.refl _, Eq.refl _⟩

theorem SameShape.strans {w₁ w₂ w₃ : Window} (h : SameShape w₁ w₂) (h' : SameShape w₂ w₃) :
    SameShape w₁ w₃ :=
  ⟨h'.1.trans h.1, h'.2.1.trans h.2.1, h'.2.2.1.trans h.2.2.1, h'.2.2.2.trans h.2.2.2⟩

/-- The two windows hold the same cell data at flat index `k` in all four
channel buffers. -/
def agreesAt (w w' : Window) (k : Nat) : Prop :=
  w'.buffer_chars k = w.buffer_chars k ∧
    w'.buffer_colors_fg k = w.buffer_colors_fg k ∧
    w'.buffer_colors_bg k = w.buffer_colors_bg k ∧
    w'.set_buffer k = w.set_buffer k

theorem agreesAt.arefl (w : Window) (k : Nat) : agreesAt w w k :=
  ⟨Eq.refl _, Eq.refl _, Eq.refl _, Eq.refl _⟩

theorem agreesAt.atrans {w₁ w₂ w₃ : Window} {k : Nat} (h : agreesAt w₁ w₂ k)
    (h' : agreesAt w₂ w₃ k) : agreesAt w₁ w₃ k :=
  ⟨h'.1.trans h.1, h'.2.1.trans h.2.1, h'.2.2.1.trans h.2.2.1, h'.2.2.2.trans h.2.2.2⟩

/-- Row-major flat indexing is injective on in-range columns. -/
theorem flat_index_inj {c a b p q : Nat} (ha : a < c) (hb : b < c)
    (h : a + p * c = b + q * c) : a = b ∧ p = q := by
  have h1 : (a + p * c) % c = a := by rw [Nat.add_mul_mod_self_right, Nat.mod_eq_of_lt ha]
  have h2 : (b + q * c) % c = b := by rw [Nat.add_mul_mod_self_right, Nat.mod_eq_of_lt hb]
  have hab : a = b := by rw [← h1, ← h2, h]
  refine ⟨hab, ?_⟩
  have hc : 0 < c := by omega
  have : p * c = q * c := by omega
  exact Nat.eq_of_mul_eq_mul_right hc this

theorem setFgCore_shape (w : Window) (x y : Nat) (c : Col) :
    SameShape w (w.setFgCore x y c) := by
  unfold Window.setFgCore
  split <;> try split
  all_goals exact ⟨rfl, rfl, rfl, rfl⟩

theorem setBgCore_shape (w : Window) (x y : Nat) (c : Col) :
    SameShape w (w.setBgCore x y c) := by
  unfold Window.setBgCore
  split <;> try split
  all_goals exact ⟨rfl, rfl, rfl, rfl⟩

theorem setCharBinCore_shape (w : Window) (x y v : Nat) :
    SameShape w (w.setCharBinCore x y v) := by
  unfold Window.setCharBinCore
  split <;> try split
  all_goals exact ⟨rfl, rfl, rfl, rfl⟩

theorem setCharCore_shape (w : Window) (x y : Nat) (c : Char) :
    SameShape w (w.setCharCore x y c) := by
  unfold Window.setCharCore
  split
  · split <;> try split
    all_goals exact ⟨rfl, rfl, rfl, rfl⟩
  · exact ⟨rfl, rfl, rfl, rfl⟩

theorem setSetCore_shape (w : Window) (x y v : Nat) :
    SameShape w (w.setSetCore x y v) := by
  unfold Window.setSetCore
  split <;> try split
  all_goals exact ⟨rfl, rfl, rfl, rfl⟩

theorem setFgCore_chars (w : Window) (x y : Nat) (c : Col) :
    (w.setFgCore x y c).buffer_chars = w.buffer_chars := by
  unfold Window.setFgCore
  split <;> try split
  all_goals rfl

theorem setFgCore_bg (w : Window) (x y : Nat) (c : Col) :
    (w.setFgCore x y c).buffer_colors_bg = w.buffer_colors_bg := by
  unfold Window.setFgCore
  split <;> try split
  all_goals rfl

theorem setFgCore_set (w : Window) (x y : Nat) (c : Col) :
    (w.setFgCore x y c).set_buffer = w.set_buffer := by
  unfold Window.setFgCore
  split <;> try split
  all_goals rfl

theorem setBgCore_chars (w : Window) (x y : Nat) (c : Col) :
    (w.setBgCore x y c).buffer_chars = w.buffer_chars := by
  unfold Window.setBgCore
  split <;> try split
  all_goals rfl

theorem setBgCore_fg (w : Window) (x y : Nat) (c : Col) :
    (w.setBgCore x y c).buffer_colors_fg = w.buffer_colors_fg := by
  unfold Window.setBgCore
  split <;> try split
  all_goals rfl

theorem setBgCore_set (w : Window) (x y : Nat) (c : Col) :
    (w.setBgCore x y c).set_buffer = w.set_buffer := by
  unfold Window.setBgCore
  split <;> try split
  all_goals rfl

theorem setCharBinCore_fg (w : Window) (x y v : Nat) :
    (w.setCharBinCore x y v).buffer_colors_fg = w.buffer_colors_fg := by
  unfold Window.setCharBinCore
  split <;> try split
  all_goals rfl

theorem setCharBinCore_bg (w : Window) (x y v : Nat) :
    (w.setCharBinCore x y v).buffer_colors_bg = w.buffer_colors_bg := by
  unfold Window.setCharBinCore
  split <;> try split
  all_goals rfl

theorem setCharBinCore_set (w : Window) (x y v : Nat) :
    (w.setCharBinCore x y v).set_buffer = w.set_buffer := by
  unfold Window.setCharBinCore
  split <;> try split
  all_goals rfl

theorem setCharCore_fg (w : Window) (x y : Nat) (c : Char) :
    (w.setCharCore x y c).buffer_colors_fg = w.buffer_colors_fg := by
  unfold Window.setCharCore
  split
  · split <;> try split
    all_goals rfl
  · rfl

theorem setCharCore_bg (w : Window) (x y : Nat) (c : Char) :
    (w.setCharCore x y c).buffer_colors_bg = w.buffer_colors_bg := by
  unfold Window.setCharCore
  split
  · split <;> try split
    all_goals rfl
  · rfl

theorem setCharCore_set (w : Window) (x y : Nat) (c : Char) :
    (w.setCharCore x y c).set_buffer = w.set_buffer := by
  unfold Window.setCharCore
  split
  · split <;> try split
    all_goals rfl
  · rfl

theorem setSetCore_chars (w : Window) (x y v : Nat) :
    (w.setSetCore x y v).buffer_chars = w.buffer_chars := by
  unfold Window.setSetCore
  split <;> try split
  all_goals rfl

theorem setSetCore_fg (w : Window) (x y v : Nat) :
    (w.setSetCore x y v).buffer_colors_fg = w.buffer_colors_fg := by
  unfold Window.setSetCore
  split <;> try split
  all_goals rfl

theorem setSetCore_bg (w : Window) (x y v : Nat) :
    (w.setSetCore x y v).buffer_colors_bg = w.buffer_colors_bg := by
  unfold Window.setSetCore
  split <;> try split
  all_goals rfl

theorem setFgCore_self (w : Window) (x y : Nat) (c : Col) (hx : x < w.cols) (hy : y < w.rows) :
    (w.setFgCore x y c).buffer_colors_fg (x + y * w.cols) = c := by
  unfold Window.setFgCore
  rw [if_pos ⟨hx, hy⟩]
  split
  · simp
  · next h =>
    push_neg at h
    exact h

theorem setBgCore_self (w : Window) (x y : Nat) (c : Col) (hx : x < w.cols) (hy : y < w.rows) :
    (w.setBgCore x y c).buffer_colors_bg (x + y * w.cols) = c := by
  unfold Window.setBgCore
  rw [if_pos ⟨hx, hy⟩]
  split
  · simp
  · next h =>
    push_neg at h
    exact h

theorem setCharBinCore_self (w : Window) (x y v : Nat) (hx : x < w.cols) (hy : y < w.rows) :
    (w.setCharBinCore x y v).buffer_chars (x + y * w.cols) = v := by
  unfold Window.setCharBinCore
  rw [if_pos ⟨hx, hy⟩]
  split
  · simp
  · next h =>
    push_neg at h
    exact h

theorem setSetCore_self (w : Window) (x y v : Nat) (hx : x < w.cols) (hy : y < w.rows) :
    (w.setSetCore x y v).set_buffer (x + y * w.cols) = v := by
  unfold Window.setSetCore
  rw [if_pos ⟨hx, hy⟩]
  split
  · simp
  · next h =>
    push_neg at h
    exact h

theorem setCharCore_encodable (w : Window) (x y : Nat) (c : Char) (b : Nat)
    (hc : encode c = some b) : w.setCharCore x y c = w.setCharBinCore x y b := by
  unfold Window.setCharCore Window.setCharBinCore
  rw [hc]

theorem setCharCore_unencodable (w : Window) (x y : Nat) (c : Char)
    (hc : encode c = none) : w.setCharCore x y c = w := by
  unfold Window.setCharCore
  rw [hc]
  split <;> rfl

theorem setCharCore_self (w : Window) (x y : Nat) (c : Char) (b : Nat) (hc : encode c = some b)
    (hx : x < w.cols) (hy : y < w.rows) :
    (w.setCharCore x y c).buffer_chars (x + y * w.cols) = b := by
  rw [setCharCore_encodable w x y c b hc]
  exact setCharBinCore_self w x y b hx hy

theorem setFgCore_frame (w : Window) (x y : Nat) (c : Col) (k : Nat)
    (h : x < w.cols → y < w.rows → k ≠ x + y * w.cols) :
    (w.setFgCore x y c).buffer_colors_fg k = w.buffer_colors_fg k := by
  unfold Window.setFgCore
  split
  · next hb =>
    split
    · have := h hb.1 hb.2
      simp [this]
    · rfl
  · rfl

theorem setBgCore_frame (w : Window) (x y : Nat) (c : Col) (k : Nat)
    (h : x < w.cols → y < w.rows → k ≠ x + y * w.cols) :
    (w.setBgCore x y c).buffer_colors_bg k = w.buffer_colors_bg k := by
  unfold Window.setBgCore
  split
  · next hb =>
    split
    · have := h hb.1 hb.2
      simp [this]
    · rfl
  · rfl

theorem setCharBinCore_frame (w : Window) (x y v : Nat) (k : Nat)
    (h : x < w.cols → y < w.rows → k ≠ x + y * w.cols) :
    (w.setCharBinCore x y v).buffer_chars k = w.buffer_chars k := by
  unfold Window.setCharBinCore
  split
  · next hb =>
    split
    · have := h hb.1 hb.2
      simp [this]
    · rfl
  · rfl

theorem setSetCore_frame (w : Window) (x y v : Nat) (k : Nat)
    (h : x < w.cols → y < w.rows → k ≠ x + y * w.cols) :
    (w.setSetCore x y v).set_buffer k = w.set_buffer k := by
  unfold Window.setSetCore
  split
  · next hb =>
    split
    · have := h hb.1 hb.2
      simp [this]
    · rfl
  · rfl

theorem setCharCore_frame (w : Window) (x y : Nat) (c : Char) (k : Nat)
    (h : x < w.cols → y < w.rows → k ≠ x + y * w.cols) :
    (w.setCharCore x y c).buffer_chars k = w.buffer_chars k := by
  cases hc : encode c with
  | none => rw [setCharCore_unencodable w x y c hc]
  | some b =>
    rw [setCharCore_encodable w x y c b hc]
    exact setCharBinCore_frame w x y b k h

/-! ## The `Int`-coordinate wrappers -/

theorem set_fg_at_coe (w : Window) (x y : Nat) (c : Col) :
    w.set_fg_at ↑x ↑y c = w.setFgCore x y c := by
  unfold Window.set_fg_at
  rw [if_pos ⟨Int.natCast_nonneg x, Int.natCast_nonneg y⟩, Int.toNat_natCast,
    Int.toNat_natCast]

theorem set_bg_at_coe (w : Window) (x y : Nat) (c : Col) :
    w.set_bg_at ↑x ↑y c = w.setBgCore x y c := by
  unfold Window.set_bg_at
  rw [if_pos ⟨Int.natCast_nonneg x, Int.natCast_nonneg y⟩, Int.toNat_natCast,
    Int.toNat_natCast]

theorem set_char_at_bin_coe (w : Window) (x y v : Nat) :
    w.set_char_at_bin ↑x ↑y v = w.setCharBinCore x y v := by
  unfold Window.set_char_at_bin
  rw [if_pos ⟨Int.natCast_nonneg x, Int.natCast_nonneg y⟩, Int.toNat_natCast,
    Int.toNat_natCast]

theorem set_char_at_coe (w : Window) (x y : Nat) (c : Char) :
    w.set_char_at ↑x ↑y c = w.setCharCore x y c := by
  unfold Window.set_char_at
  rw [if_pos ⟨Int.natCast_nonneg x, Int.natCast_nonneg y⟩, Int.toNat_natCast,
    Int.toNat_natCast]

theorem set_set_at_coe (w : Window) (x y v : Nat) :
    w.set_set_at ↑x ↑y v =
      (if v < w.num_fonts % 256 then some (w.setSetCore x y v) else none) := by
  unfold Window.set_set_at
  split
  · rw [if_pos ⟨Int.natCast_nonneg x, Int.natCast_nonneg y⟩, Int.toNat_natCast,
      Int.toNat_natCast]
  · rfl

/-- A coordinate pair is outside the grid: negative on some axis, or at least
the column/row count on some axis. -/
def OutOfBounds (w : Window) (x y : Int) : Prop :=
  x < 0 ∨ y < 0 ∨ (w.cols : Int) ≤ x ∨ (w.rows : Int) ≤ y

theorem setFgCore_oob (w : Window) (x y : Nat) (c : Col) (h : ¬(x < w.cols ∧ y < w.rows)) :
    w.setFgCore x y c = w := by
  unfold Window.setFgCore
  rw [if_neg h]

theorem setBgCore_oob (w : Window) (x y : Nat) (c : Col) (h : ¬(x < w.cols ∧ y < w.rows)) :
    w.setBgCore x y c = w := by
  unfold Window.setBgCore
  rw [if_neg h]

theorem setCharBinCore_oob (w : Window) (x y v : Nat) (h : ¬(x < w.cols ∧ y < w.rows)) :
    w.setCharBinCore x y v = w := by
  unfold Window.setCharBinCore
  rw [if_neg h]

theorem setCharCore_oob (w : Window) (x y : Nat) (c : Char) (h : ¬(x < w.cols ∧ y < w.rows)) :
    w.setCharCore x y c = w := by
  unfold Window.setCharCore
  rw [if_neg h]

theorem setSetCore_oob (w : Window) (x y v : Nat) (h : ¬(x < w.cols ∧ y < w.rows)) :
    w.setSetCore x y v = w := by
  unfold Window.setSetCore
  rw [if_neg h]

theorem set_fg_at_oob (w : Window) (x y : Int) (c : Col) (h : OutOfBounds w x y) :
    w.set_fg_at x y c = w := by
  unfold Window.set_fg_at
  by_cases hn : 0 ≤ x ∧ 0 ≤ y
  · rw [if_pos hn]
    refine setFgCore_oob w _ _ c ?_
    rcases h with h | h | h | h <;> omega
  · rw [if_neg hn]

theorem set_bg_at_oob (w : Window) (x y : Int) (c : Col) (h : OutOfBounds w x y) :
    w.set_bg_at x y c = w := by
  unfold Window.set_bg_at
  by_cases hn : 0 ≤ x ∧ 0 ≤ y
  · rw [if_pos hn]
    refine setBgCore_oob w _ _ c ?_
    rcases h with h | h | h | h <;> omega
  · rw [if_neg hn]

theorem set_char_at_bin_oob (w : Window) (x y : Int) (v : Nat) (h : OutOfBounds w x y) :
    w.set_char_at_bin x y v = w := by
  unfold Window.set_char_at_bin
  by_cases hn : 0 ≤ x ∧ 0 ≤ y
  · rw [if_pos hn]
    refine setCharBinCore_oob w _ _ v ?_
    rcases h with h | h | h | h <;> omega
  · rw [if_neg hn]

theorem set_char_at_oob (w : Window) (x y : Int) (c : Char) (h : OutOfBounds w x y) :
    w.set_char_at x y c = w := by
  unfold Window.set_char_at
  by_cases hn : 0 ≤ x ∧ 0 ≤ y
  · rw [if_pos hn]
    refine setCharCore_oob w _ _ c ?_
    rcases h with h | h | h | h <;> omega
  · rw [if_neg hn]

theorem set_set_at_oob (w : Window) (x y : Int) (v : Nat) (hv : v < w.num_fonts % 256)
    (h : OutOfBounds w x y) : w.set_set_at x y v = some w := by
  unfold Window.set_set_at
  rw [if_pos hv]
  by_cases hn : 0 ≤ x ∧ 0 ≤ y
  · rw [if_pos hn, setSetCore_oob]
    rcases h with h | h | h | h <;> omega
  · rw [if_neg hn]

/-! ## Dirty-flag and write-avoidance characterizations -/

theorem setFgCore_dirty (w : Window) (x y : Nat) (c : Col) (hx : x < w.cols) (hy : y < w.rows) :
    ((w.setFgCore x y c).dirty = true ↔
      (w.dirty = true ∨ w.buffer_colors_fg (x + y * w.cols) ≠ c)) := by
  unfold Window.setFgCore
  rw [if_pos ⟨hx, hy⟩]
  split
  · next h => simp [h]
  · next h =>
    push_neg at h
    simp [h]

theorem setBgCore_dirty (w : Window) (x y : Nat) (c : Col) (hx : x < w.cols) (hy : y < w.rows) :
    ((w.setBgCore x y c).dirty = true ↔
      (w.dirty = true ∨ w.buffer_colors_bg (x + y * w.cols) ≠ c)) := by
  unfold Window.setBgCore
  rw [if_pos ⟨hx, hy⟩]
  split
  · next h => simp [h]
  · next h =>
    push_neg at h
    simp [h]

theorem setCharBinCore_dirty (w : Window) (x y v : Nat) (hx : x < w.cols) (hy : y < w.rows) :
    ((w.setCharBinCore x y v).dirty = true ↔
      (w.dirty = true ∨ w.buffer_chars (x + y * w.cols) ≠ v)) := by
  unfold Window.setCharBinCore
  rw [if_pos ⟨hx, hy⟩]
  split
  · next h => simp [h]
  · next h =>
    push_neg at h
    simp [h]

theorem setSetCore_dirty (w : Window) (x y v : Nat) (hx : x < w.cols) (hy : y < w.rows) :
    ((w.setSetCore x y v).dirty = true ↔
      (w.dirty = true ∨ w.set_buffer (x + y * w.cols) ≠ v)) := by
  unfold Window.setSetCore
  rw [if_pos ⟨hx, hy⟩]
  split
  · next h => simp [h]
  · next h =>
    push_neg at h
    simp [h]

theorem setFgCore_noop (w : Window) (x y : Nat) (c : Col)
    (h : w.buffer_colors_fg (x + y * w.cols) = c) : w.setFgCore x y c = w := by
  unfold Window.setFgCore
  split
  · rw [if_neg (by simp [h])]
  · rfl

theorem setBgCore_noop (w : Window) (x y : Nat) (c : Col)
    (h : w.buffer_colors_bg (x + y * w.cols) = c) : w.setBgCore x y c = w := by
  unfold Window.setBgCore
  split
  · rw [if_neg (by simp [h])]
  · rfl

theorem setCharBinCore_noop (w : Window) (x y v : Nat)
    (h : w.buffer_chars (x + y * w.cols) = v) : w.setCharBinCore x y v = w := by
  unfold Window.setCharBinCore
  split
  · rw [if_neg (by simp [h])]
  · rfl

theorem setSetCore_noop (w : Window) (x y v : Nat)
    (h : w.set_buffer (x + y * w.cols) = v) : w.setSetCore x y v = w := by
  unfold Window.setSetCore
  split
  · rw [if_neg (by simp [h])]
  · rfl

/-! ## Wrapper-level shape, cross-channel and frame lemmas -/

theorem set_fg_at_shape (w : Window) (x y : Int) (c : Col) : SameShape w (w.set_fg_at x y c) := by
  unfold Window.set_fg_at
  split
  · exact setFgCore_shape w _ _ c
  · exact SameShape.srefl w

theorem set_bg_at_shape (w : Window) (x y : Int) (c : Col) : SameShape w (w.set_bg_at x y c) := by
  unfold Window.set_bg_at
  split
  · exact setBgCore_shape w _ _ c
  · exact SameShape.srefl w

theorem set_char_at_bin_shape (w : Window) (x y : Int) (v : Nat) :
    SameShape w (w.set_char_at_bin x y v) := by
  unfold Window.set_char_at_bin
  split
  · exact setCharBinCore_shape w _ _ v
  · exact SameShape.srefl w

theorem set_char_at_shape (w : Window) (x y : Int) (c : Char) :
    SameShape w (w.set_char_at x y c) := by
  unfold Window.set_char_at
  split
  · exact setCharCore_shape w _ _ c
  · exact SameShape.srefl w

theorem set_set_at_shape (w : Window) (x y : Int) (v : Nat) (w' : Window)
    (h : w.set_set_at x y v = some w') : SameShape w w' := by
  unfold Window.set_set_at at h
  split at h
  · rw [Option.some_inj] at h
    subst h
    split
    · exact setSetCore_shape w _ _ v
    · exact SameShape.srefl w
  · exact absurd h (by simp)

theorem set_fg_at_chars (w : Window) (x y : Int) (c : Col) :
    (w.set_fg_at x y c).buffer_chars = w.buffer_chars := by
  unfold Window.set_fg_at
  split
  · exact setFgCore_chars w _ _ c
  · rfl

theorem set_fg_at_bg (w : Window) (x y : Int) (c : Col) :
    (w.set_fg_at x y c).buffer_colors_bg = w.buffer_colors_bg := by
  unfold Window.set_fg_at
  split
  · exact setFgCore_bg w _ _ c
  · rfl

theorem set_fg_at_set (w : Window) (x y : Int) (c : Col) :
    (w.set_fg_at x y c).set_buffer = w.set_buffer := by
  unfold Window.set_fg_at
  split
  · exact setFgCore_set w _ _ c
  · rfl

theorem set_bg_at_chars (w : Window) (x y : Int) (c : Col) :
    (w.set_bg_at x y c).buffer_chars = w.buffer_chars := by
  unfold Window.set_bg_at
  split
  · exact setBgCore_chars w _ _ c
  · rfl

theorem set_bg_at_fg (w : Window) (x y : Int) (c : Col) :
    (w.set_bg_at x y c).buffer_colors_fg = w.buffer_colors_fg := by
  unfold Window.set_bg_at
  split
  · exact setBgCore_fg w _ _ c
  · rfl

theorem set_bg_at_set (w : Window) (x y : Int) (c : Col) :
    (w.set_bg_at x y c).set_buffer = w.set_buffer := by
  unfold Window.set_bg_at
  split
  · exact setBgCore_set w _ _ c
  · rfl

theorem set_char_at_bin_fg (w : Window) (x y : Int) (v : Nat) :
    (w.set_char_at_bin x y v).buffer_colors_fg = w.buffer_colors_fg := by
  unfold Window.set_char_at_bin
  split
  · exact setCharBinCore_fg w _ _ v
  · rfl

theorem set_char_at_bin_bg (w : Window) (x y : Int) (v : Nat) :
    (w.set_char_at_bin x y v).buffer_colors_bg = w.buffer_colors_bg := by
  unfold Window.set_char_at_bin
  split
  · exact setCharBinCore_bg w _ _ v
  · rfl

theorem set_char_at_bin_set (w : Window) (x y : Int) (v : Nat) :
    (w.set_char_at_bin x y v).set_buffer = w.set_buffer := by
  unfold Window.set_char_at_bin
  split
  · exact setCharBinCore_set w _ _ v
  · rfl

theorem set_char_at_fg (w : Window) (x y : Int) (c : Char) :
    (w.set_char_at x y c).buffer_colors_fg = w.buffer_colors_fg := by
  unfold Window.set_char_at
  split
  · exact setCharCore_fg w _ _ c
  · rfl

theorem set_char_at_bg (w : Window) (x y : Int) (c : Char) :
    (w.set_char_at x y c).buffer_colors_bg = w.buffer_colors_bg := by
  unfold Window.set_char_at
  split
  · exact setCharCore_bg w _ _ c
  · rfl

theorem set_char_at_set (w : Window) (x y : Int) (c : Char) :
    (w.set_char_at x y c).set_buffer = w.set_buffer := by
  unfold Window.set_char_at
  split
  · exact setCharCore_set w _ _ c
  · rfl

theorem set_set_at_chars (w : Window) (x y : Int) (v : Nat) (w' : Window)
    (h : w.set_set_at x y v = some w') : w'.buffer_chars = w.buffer_chars := by
  unfold Window.set_set_at at h
  split at h
  · rw [Option.some_inj] at h
    subst h
    split
    · exact setSetCore_chars w _ _ v
    · rfl
  · exact absurd h (by simp)

theorem set_set_at_fg (w : Window) (x y : Int) (v : Nat) (w' : Window)
    (h : w.set_set_at x y v = some w') : w'.buffer_colors_fg = w.buffer_colors_fg := by
  unfold Window.set_set_at at h
  split at h
  · rw [Option.some_inj] at h
    subst h
    split
    · exact setSetCore_fg w _ _ v
    · rfl
  · exact absurd h (by simp)

theorem set_set_at_bg (w : Window) (x y : Int) (v : Nat) (w' : Window)
    (h : w.set_set_at x y v = some w') : w'.buffer_colors_bg = w.buffer_colors_bg := by
  unfold Window.set_set_at at h
  split at h
  · rw [Option.some_inj] at h
    subst h
    split
    · exact setSetCore_bg w _ _ v
    · rfl
  · exact absurd h (by simp)

/-- If a flat index `cx + cy * cols` (with `cx` a valid column) is the write
index of an in-range coordinate pair `(x, y)`, then `(x, y) = (↑cx, ↑cy)`. -/
theorem coord_ne_flat (w : Window) (x y : Int) (cx cy : Nat) (hcx : cx < w.cols)
    (hx0 : 0 ≤ x) (hy0 : 0 ≤ y) (hne : (x, y) ≠ ((cx : Int), (cy : Int)))
    (hx : x.toNat < w.cols) : cx + cy * w.cols ≠ x.toNat + y.toNat * w.cols := by
  intro hk
  obtain ⟨h1, h2⟩ := flat_index_inj hcx hx hk
  apply hne
  have hxe : x = (cx : Int) := by omega
  have hye : y = (cy : Int) := by omega
  rw [hxe, hye]

theorem set_fg_at_frame_ne (w : Window) (x y : Int) (c : Col) (cx cy : Nat)
    (hcx : cx < w.cols) (hne : (x, y) ≠ ((cx : Int), (cy : Int))) :
    (w.set_fg_at x y c).buffer_colors_fg (cx + cy * w.cols) =
      w.buffer_colors_fg (cx + cy * w.cols) := by
  unfold Window.set_fg_at
  split
  · next hn =>
    refine setFgCore_frame w _ _ c _ fun hx _ => ?_
    exact coord_ne_flat w x y cx cy hcx hn.1 hn.2 hne hx
  · rfl

theorem set_bg_at_frame_ne (w : Window) (x y : Int) (c : Col) (cx cy : Nat)
    (hcx : cx < w.cols) (hne : (x, y) ≠ ((cx : Int), (cy : Int))) :
    (w.set_bg_at x y c).buffer_colors_bg (cx + cy * w.cols) =
      w.buffer_colors_bg (cx + cy * w.cols) := by
  unfold Window.set_bg_at
  split
  · next hn =>
    refine setBgCore_frame w _ _ c _ fun hx _ => ?_
    exact coord_ne_flat w x y cx cy hcx hn.1 hn.2 hne hx
  · rfl

theorem set_char_at_bin_frame_ne (w : Window) (x y : Int) (v : Nat) (cx cy : Nat)
    (hcx : cx < w.cols) (hne : (x, y) ≠ ((cx : Int), (cy : Int))) :
    (w.set_char_at_bin x y v).buffer_chars (cx + cy * w.cols) =
      w.buffer_chars (cx + cy * w.cols) := by
  unfold Window.set_char_at_bin
  split
  · next hn =>
    refine setCharBinCore_frame w _ _ v _ fun hx _ => ?_
    exact coord_ne_flat w x y cx cy hcx hn.1 hn.2 hne hx
  · rfl

theorem set_char_at_frame_ne (w : Window) (x y : Int) (c : Char) (cx cy : Nat)
    (hcx : cx < w.cols) (hne : (x, y) ≠ ((cx : Int), (cy : Int))) :
    (w.set_char_at x y c).buffer_chars (cx + cy * w.cols) =
      w.buffer_chars (cx + cy * w.cols) := by
  unfold Window.set_char_at
  split
  · next hn =>
    refine setCharCore_frame w _ _ c _ fun hx _ => ?_
    exact coord_ne_flat w x y cx cy hcx hn.1 hn.2 hne hx
  · rfl

theorem set_set_at_frame_ne (w : Window) (x y : Int) (v : Nat) (w' : Window)
    (h : w.set_set_at x y v = some w') (cx cy : Nat)
    (hcx : cx < w.cols) (hne : (x, y) ≠ ((cx : Int), (cy : Int))) :
    w'.set_buffer (cx + cy * w.cols) = w.set_buffer (cx + cy * w.cols) := by
  unfold Window.set_set_at at h
  split at h
  · rw [Option.some_inj] at h
    subst h
    split
    · next hn =>
      refine setSetCore_frame w _ _ v _ fun hx _ => ?_
      exact coord_ne_flat w x y cx cy hcx hn.1 hn.2 hne hx
    · rfl
  · exact absurd h (by simp)

/-- A full `agreesAt` frame for `set_fg_at` at a different cell. -/
theorem set_fg_at_agrees (w : Window) (x y : Int) (c : Col) (cx cy : Nat)
    (hcx : cx < w.cols) (hne : (x, y) ≠ ((cx : Int), (cy : Int))) :
    agreesAt w (w.set_fg_at x y c) (cx + cy * w.cols) :=
  ⟨congrFun (set_fg_at_chars w x y c) _, set_fg_at_frame_ne w x y c cx cy hcx hne,
    congrFun (set_fg_at_bg w x y c) _, congrFun (set_fg_at_set w x y c) _⟩

theorem set_bg_at_agrees (w : Window) (x y : Int) (c : Col) (cx cy : Nat)
    (hcx : cx < w.cols) (hne : (x, y) ≠ ((cx : Int), (cy : Int))) :
    agreesAt w (w.set_bg_at x y c) (cx + cy * w.cols) :=
  ⟨congrFun (set_bg_at_chars w x y c) _, congrFun (set_bg_at_fg w x y c) _,
    set_bg_at_frame_ne w x y c cx cy hcx hne, congrFun (set_bg_at_set w x y c) _⟩

theorem set_char_at_bin_agrees (w : Window) (x y : Int) (v : Nat) (cx cy : Nat)
    (hcx : cx < w.cols) (hne : (x, y) ≠ ((cx : Int), (cy : Int))) :
    agreesAt w (w.set_char_at_bin x y v) (cx + cy * w.cols) :=
  ⟨set_char_at_bin_frame_ne w x y v cx cy hcx hne, congrFun (set_char_at_bin_fg w x y v) _,
    congrFun (set_char_at_bin_bg w x y v) _, congrFun (set_char_at_bin_set w x y v) _⟩

theorem set_char_at_agrees (w : Window) (x y : Int) (c : Char) (cx cy : Nat)
    (hcx : cx < w.cols) (hne : (x, y) ≠ ((cx : Int), (cy : Int))) :
    agreesAt w (w.set_char_at x y c) (cx + cy * w.cols) :=
  ⟨set_char_at_frame_ne w x y c cx cy hcx hne, congrFun (set_char_at_fg w x y c) _,
    congrFun (set_char_at_bg w x y c) _, congrFun (set_char_at_set w x y c) _⟩

theorem set_set_at_agrees (w : Window) (x y : Int) (v : Nat) (w' : Window)
    (h : w.set_set_at x y v = some w') (cx cy : Nat)
    (hcx : cx < w.cols) (hne : (x, y) ≠ ((cx : Int), (cy : Int))) :
    agreesAt w w' (cx + cy * w.cols) :=
  ⟨congrFun (set_set_at_chars w x y v w' h) _, congrFun (set_set_at_fg w x y v w' h) _,
    congrFun (set_set_at_bg w x y v w' h) _, set_set_at_frame_ne w x y v w' h cx cy hcx hne⟩

/-! ## Generic lemmas about folding a per-cell operation over a position list -/

theorem foldCells_shape (step : Window → Int × Int → Option Window)
    (hshape : ∀ w p w', step w p = some w' → SameShape w w') (L : List (Int × Int)) :
    ∀ w w', foldCells step w L = some w' → SameShape w w' := by
  induction L with
  | nil =>
    intro w w' h
    unfold foldCells at h
    rw [Option.some_inj] at h
    subst h
    exact SameShape.srefl w
  | cons p ps ih =>
    intro w w' h
    unfold foldCells at h
    cases hs : step w p with
    | none => rw [hs] at h; cases h
    | some w₁ =>
      rw [hs] at h
      exact (hshape w p w₁ hs).strans (ih w₁ w' h)

theorem foldCells_some (step : Window → Int × Int → Option Window) (w₀ : Window)
    (hshape : ∀ w p w', step w p = some w' → SameShape w w')
    (hsome : ∀ w p, SameShape w₀ w → (step w p).isSome) (L : List (Int × Int)) :
    ∀ w, SameShape w₀ w → ∃ w', foldCells step w L = some w' ∧ SameShape w₀ w' := by
  induction L with
  | nil => intro w hw; exact ⟨w, rfl, hw⟩
  | cons p ps ih =>
    intro w hw
    cases hs : step w p with
    | none =>
      have := hsome w p hw
      rw [hs] at this
      cases this
    | some w₁ =>
      obtain ⟨w', h1, h2⟩ := ih w₁ (hw.strans (hshape w p w₁ hs))
      refine ⟨w', ?_, h2⟩
      unfold foldCells
      rw [hs]
      exact h1

theorem foldCells_frame (step : Window → Int × Int → Option Window) (w₀ : Window) (k : Nat)
    (hshape : ∀ w p w', step w p = some w' → SameShape w w') (L : List (Int × Int)) :
    ∀ w w',
      (∀ w₁ p w₂, SameShape w₀ w₁ → p ∈ L → step w₁ p = some w₂ → agreesAt w₁ w₂ k) →
      SameShape w₀ w → foldCells step w L = some w' → agreesAt w w' k := by
  induction L with
  | nil =>
    intro w w' _ _ h
    unfold foldCells at h
    rw [Option.some_inj] at h
    subst h
    exact agreesAt.arefl w k
  | cons p ps ih =>
    intro w w' hfr hw h
    unfold foldCells at h
    cases hs : step w p with
    | none => rw [hs] at h; cases h
    | some w₁ =>
      rw [hs] at h
      have h1 : agreesAt w w₁ k := hfr w p w₁ hw (List.mem_cons_self p ps) hs
      have h2 : agreesAt w₁ w' k :=
        ih w₁ w' (fun wa q wb hq hmem hstep => hfr wa q wb hq (List.mem_cons_of_mem p hmem) hstep)
          (hw.strans (hshape w p w₁ hs)) h
      exact h1.atrans h2

theorem foldCells_preserve (step : Window → Int × Int → Option Window) (w₀ : Window) (k : Nat)
    (P : Window → Prop) (p₀ : Int × Int)
    (hshape : ∀ w p w', step w p = some w' → SameShape w w')
    (hsome : ∀ w p, SameShape w₀ w → (step w p).isSome)
    (hP : ∀ w w', P w → agreesAt w w' k → P w')
    (hother : ∀ w p w', SameShape w₀ w → p ≠ p₀ → step w p = some w' → agreesAt w w' k)
    (L : List (Int × Int)) :
    (∀ p ∈ L, p ≠ p₀) → ∀ w, SameShape w₀ w → P w →
      ∃ w', foldCells step w L = some w' ∧ P w' ∧ SameShape w₀ w' := by
  induction L with
  | nil =>
    intro _ w hw hPw
    exact ⟨w, rfl, hPw, hw⟩
  | cons p ps ih =>
    intro hne w hw hPw
    cases hs : step w p with
    | none =>
      have := hsome w p hw
      rw [hs] at this
      cases this
    | some w₁ =>
      have hag : agreesAt w w₁ k := hother w p w₁ hw (hne p (List.mem_cons_self p ps)) hs
      obtain ⟨w', h1, h2, h3⟩ :=
        ih (fun q hq => hne q (List.mem_cons_of_mem p hq)) w₁
          (hw.strans (hshape w p w₁ hs)) (hP w w₁ hPw hag)
      refine ⟨w', ?_, h2, h3⟩
      unfold foldCells
      rw [hs]
      exact h1

theorem foldCells_establish (step : Window → Int × Int → Option Window) (w₀ : Window) (k : Nat)
    (P : Window → Prop) (p₀ : Int × Int)
    (hshape : ∀ w p w', step w p = some w' → SameShape w w')
    (hsome : ∀ w p, SameShape w₀ w → (step w p).isSome)
    (hP : ∀ w w', P w → agreesAt w w' k → P w')
    (hest : ∀ w w', SameShape w₀ w → step w p₀ = some w' → P w')
    (hother : ∀ w p w', SameShape w₀ w → p ≠ p₀ → step w p = some w' → agreesAt w w' k)
    (L : List (Int × Int)) :
    ∀ w, SameShape w₀ w → p₀ ∈ L →
      ∃ w', foldCells step w L = some w' ∧ P w' ∧ SameShape w₀ w' := by
  induction L with
  | nil =>
    intro w _ hmem
    cases hmem
  | cons p ps ih =>
    intro w hw hmem
    cases hs : step w p with
    | none =>
      have := hsome w p hw
      rw [hs] at this
      cases this
    | some w₁ =>
      have hw₁ : SameShape w₀ w₁ := hw.strans (hshape w p w₁ hs)
      by_cases hmem' : p₀ ∈ ps
      · obtain ⟨w', h1, h2, h3⟩ := ih w₁ hw₁ hmem'
        refine ⟨w', ?_, h2, h3⟩
        unfold foldCells
        rw [hs]
        exact h1
      · have hp : p = p₀ := by
          rcases List.mem_cons.mp hmem with h | h
          · exact h.symm
          · exact absurd h hmem'
        subst hp
        have hPw₁ : P w₁ := hest w w₁ hw hs
        obtain ⟨w', h1, h2, h3⟩ :=
          foldCells_preserve step w₀ k P p hshape hsome hP hother ps
            (fun q hq heq => hmem' (heq ▸ hq)) w₁ hw₁ hPw₁
        refine ⟨w', ?_, h2, h3⟩
        unfold foldCells
        rw [hs]
        exact h1

/-! ## Membership in the loop position lists -/

theorem mem_colPositions (x y : Int) (n : Nat) (a b : Int) :
    (a, b) ∈ colPositions x y n ↔ a = x ∧ ∃ j : Nat, j < n ∧ b = y + j := by
  induction n generalizing y with
  | zero => simp [colPositions]
  | succ n ih =>
    simp only [colPositions, List.mem_cons, ih, Prod.mk.injEq]
    constructor
    · rintro (⟨rfl, rfl⟩ | ⟨rfl, j, hj, rfl⟩)
      · exact ⟨rfl, 0, by omega, by omega⟩
      · exact ⟨rfl, j + 1, by omega, by omega⟩
    · rintro ⟨rfl, j, hj, rfl⟩
      cases j with
      | zero => exact Or.inl ⟨rfl, by omega⟩
      | succ j => exact Or.inr ⟨rfl, j, by omega, by omega⟩

theorem mem_gridPositions (x y : Int) (ht : Nat) (n : Nat) (a b : Int) :
    (a, b) ∈ gridPositions x y ht n ↔
      (∃ i : Nat, i < n ∧ a = x + i) ∧ ∃ j : Nat, j < ht ∧ b = y + j := by
  induction n generalizing x with
  | zero => simp [gridPositions]
  | succ n ih =>
    simp only [gridPositions, List.mem_append, mem_colPositions, ih]
    constructor
    · rintro (⟨rfl, j, hj, rfl⟩ | ⟨⟨i, hi, rfl⟩, j, hj, rfl⟩)
      · exact ⟨⟨0, by omega, by omega⟩, j, hj, rfl⟩
      · exact ⟨⟨i + 1, by omega, by omega⟩, j, hj, rfl⟩
    · rintro ⟨⟨i, hi, rfl⟩, j, hj, rfl⟩
      cases i with
      | zero => exact Or.inl ⟨by omega, j, hj, rfl⟩
      | succ i => exact Or.inr ⟨⟨i, by omega, by omega⟩, j, hj, rfl⟩

theorem mem_tbPositions (x y y2 : Int) (n : Nat) (a b : Int) :
    (a, b) ∈ tbPositions x y y2 n ↔ (∃ i : Nat, i < n ∧ a = x + i) ∧ (b = y ∨ b = y2) := by
  induction n generalizing x with
  | zero => simp [tbPositions]
  | succ n ih =>
    simp only [tbPositions, List.mem_cons, ih, Prod.mk.injEq]
    constructor
    · rintro (⟨rfl, rfl⟩ | ⟨rfl, rfl⟩ | ⟨⟨i, hi, rfl⟩, hb⟩)
      · exact ⟨⟨0, by omega, by omega⟩, Or.inl rfl⟩
      · exact ⟨⟨0, by omega, by omega⟩, Or.inr rfl⟩
      · exact ⟨⟨i + 1, by omega, by omega⟩, hb⟩
    · rintro ⟨⟨i, hi, rfl⟩, hb⟩
      cases i with
      | zero =>
        rcases hb with rfl | rfl
        · exact Or.inl ⟨by omega, rfl⟩
        · exact Or.inr (Or.inl ⟨by omega, rfl⟩)
      | succ i => exact Or.inr (Or.inr ⟨⟨i, by omega, by omega⟩, hb⟩)

theorem mem_lrPositions (x x2 y : Int) (n : Nat) (a b : Int) :
    (a, b) ∈ lrPositions x x2 y n ↔ (∃ j : Nat, j < n ∧ b = y + j) ∧ (a = x ∨ a = x2) := by
  induction n generalizing y with
  | zero => simp [lrPositions]
  | succ n ih =>
    simp only [lrPositions, List.mem_cons, ih, Prod.mk.injEq]
    constructor
    · rintro (⟨rfl, rfl⟩ | ⟨rfl, rfl⟩ | ⟨⟨j, hj, rfl⟩, hb⟩)
      · exact ⟨⟨0, by omega, by omega⟩, Or.inl rfl⟩
      · exact ⟨⟨0, by omega, by omega⟩, Or.inr rfl⟩
      · exact ⟨⟨j + 1, by omega, by omega⟩, hb⟩
    · rintro ⟨⟨j, hj, rfl⟩, hb⟩
      cases j with
      | zero =>
        rcases hb with rfl | rfl
        · exact Or.inl ⟨rfl, by omega⟩
        · exact Or.inr (Or.inl ⟨rfl, by omega⟩)
      | succ j => exact Or.inr (Or.inr ⟨⟨j, by omega, by omega⟩, hb⟩)

/-! ## Indexing the captured snapshot arrays -/

theorem loopList_length {α : Type} (g : Nat → α) (lo n : Nat) :
    (loopList g lo n).length = n := by
  induction n generalizing lo with
  | zero => rfl
  | succ n ih => simp [loopList, ih]

theorem loopList_get {α : Type} (g : Nat → α) (lo n j : Nat) (hj : j < n) :
    (loopList g lo n)[j]? = some (g (lo + j)) := by
  induction n generalizing lo j with
  | zero => omega
  | succ n ih =>
    cases j with
    | zero => simp [loopList]
    | succ j =>
      simp only [loopList, List.getElem?_cons_succ]
      rw [ih (lo + 1) j (by omega)]
      have : lo + 1 + j = lo + (j + 1) := by omega
      rw [this]

theorem flatGrid_length {α : Type} (f : Nat → Nat → α) (y ht x n : Nat) :
    (flatGrid f y ht x n).length = n * ht := by
  induction n generalizing x with
  | zero => simp [flatGrid]
  | succ n ih =>
    simp only [flatGrid, List.length_append, loopList_length, ih]
    ring

theorem flatGrid_get {α : Type} (f : Nat → Nat → α) (y ht x n i j : Nat) (hi : i < n)
    (hj : j < ht) :
    (flatGrid f y ht x n)[i * ht + j]? = some (f (x + i) (y + j)) := by
  induction n generalizing x i with
  | zero => omega
  | succ n ih =>
    cases i with
    | zero =>
      have h0 : 0 * ht + j = j := by omega
      simp only [flatGrid, h0]
      rw [List.getElem?_append_left (by rw [loopList_length]; exact hj)]
      rw [loopList_get (f x) y ht j hj]
      have : x + 0 = x := by omega
      rw [this]
    | succ i =>
      have hidx : (i + 1) * ht + j = ht + (i * ht + j) := by ring
      simp only [flatGrid, hidx]
      rw [List.getElem?_append_right (by rw [loopList_length]; omega)]
      rw [loopList_length]
      have hsub : ht + (i * ht + j) - ht = i * ht + j := by omega
      rw [hsub, ih (x + 1) i (by omega)]
      have : x + 1 + i = x + (i + 1) := by omega
      rw [this]

/-! ## Concrete windows for witnesses -/

/-- A freshly constructed window, mirroring the CPU-side state `new_inner`
builds: zeroed buffers, clean dirty flag, zeroed instance pool with an empty
cursor. -/
def mkWindow (cols rows num_fonts max_inst : Nat) : Window :=
  { cols := cols
    rows := rows
    buffer_chars := fun _ => 0
    buffer_colors_fg := fun _ => (0, 0, 0, 0)
    buffer_colors_bg := fun _ => (0, 0, 0, 0)
    set_buffer := fun _ => 0
    dirty := false
    instances := fun _ => InstanceData.zeroed
    max_instances := max_inst
    instance_count := 0
    num_fonts := num_fonts
    gpu_chars := fun _ => 0
    gpu_fg := fun _ => (0, 0, 0, 0)
    gpu_bg := fun _ => (0, 0, 0, 0)
    gpu_set := fun _ => 0
    gpu_instances := fun _ => InstanceData.zeroed }

/-! ## Claim C1: the dirty flag across `draw()` -/

/-- A fresh 4×4 window with the dirty flag set, as after any mutation. -/
def exC1 : Window := { mkWindow 4 4 1 2 with dirty := true }

/-- C1 counterexample: the claim says the dirty flag is false when `draw()`
returns.  It is not: `Window::draw` only reads the flag (`if self.dirty`) and
no assignment `self.dirty = false` exists anywhere in the source, so a draw
that begins dirty still ends dirty. -/
theorem draw_dirty_counterexample : exC1.dirty = true ∧ exC1.draw.dirty = true :=
  ⟨rfl, rfl⟩

/-- C1 (amended): for every window state, a call to `draw()` that begins with
the dirty flag set performs the full unconditional upload at the start (all
four channel buffers and the instance buffer reach their GPU copies) and
leaves the CPU buffers alone, but the dirty flag is still `true` when `draw()`
returns — the source never clears it, so the Dirty→Clean transition claimed by
the spec does not happen. -/
theorem draw_uploads_and_keeps_dirty (w : Window) (h : w.dirty = true) :
    w.draw.gpu_chars = w.buffer_chars ∧ w.draw.gpu_fg = w.buffer_colors_fg ∧
    w.draw.gpu_bg = w.buffer_colors_bg ∧ w.draw.gpu_set = w.set_buffer ∧
    w.draw.gpu_instances = w.instances ∧ w.draw.dirty = true ∧
    w.draw.buffer_chars = w.buffer_chars ∧ w.draw.buffer_colors_fg = w.buffer_colors_fg ∧
    w.draw.buffer_colors_bg = w.buffer_colors_bg ∧ w.draw.set_buffer = w.set_buffer := by
  unfold Window.draw
  rw [if_pos h]
  exact ⟨rfl, rfl, rfl, rfl, rfl, h, rfl, rfl, rfl, rfl⟩

/-- Closed witness for the amended C1 at a concrete dirty window. -/
theorem draw_uploads_and_keeps_dirty_witness :
    exC1.dirty = true ∧ exC1.draw.gpu_chars = exC1.buffer_chars ∧ exC1.draw.dirty = true := by
  have h := draw_uploads_and_keeps_dirty exC1 rfl
  exact ⟨rfl, h.1, h.2.2.2.2.2.1⟩

/-! ## Claim C3: `take_snapshot` boundary check -/

/-- C3: `take_snapshot(x, y, width, height)` panics exactly when
`x + width ≥ cols` or `y + height ≥ rows`, and returns normally exactly when
both sums are strictly below the grid dimensions; in particular a region
touching the rightmost column (`x + width = cols`) or bottommost row is
always rejected. -/
theorem take_snapshot_bounds (w : Window) (x y width height : Nat) :
    (w.take_snapshot x y width height = none ↔
      (w.cols ≤ x + width ∨ w.rows ≤ y + height)) ∧
    ((∃ s, w.take_snapshot x y width height = some s) ↔
      (x + width < w.cols ∧ y + height < w.rows)) := by
  unfold Window.take_snapshot
  split
  · next h =>
    refine ⟨iff_of_true rfl h, iff_of_false ?_ ?_⟩
    · rintro ⟨s, hs⟩
      cases hs
    · omega
  · next h =>
    refine ⟨iff_of_false ?_ ?_, iff_of_true ⟨_, rfl⟩ ?_⟩
    · intro hs
      cases hs
    · omega
    · omega

/-- Closed witness for C3: on a 4×4 grid, the region `(3, 0, 1, 1)` touching
the rightmost column is rejected while `(0, 0, 1, 1)` is accepted. -/
theorem take_snapshot_bounds_witness :
    (mkWindow 4 4 1 2).take_snapshot 3 0 1 1 = none ∧
    (∃ s, (mkWindow 4 4 1 2).take_snapshot 0 0 1 1 = some s) :=
  ⟨(take_snapshot_bounds (mkWindow 4 4 1 2) 3 0 1 1).1.mpr (Or.inl (by decide)),
    (take_snapshot_bounds (mkWindow 4 4 1 2) 0 0 1 1).2.mpr ⟨by decide, by decide⟩⟩

/-! ## Claim C5: `add_instance` saturation -/

theorem add_instance_true_iff (w : Window) (d : InstanceData) :
    (w.add_instance d).2 = true ↔ w.instance_count < w.max_instances := by
  unfold Window.add_instance
  split
  · next h => simpa using h
  · next h => simpa using h

theorem addRepeat_count (w : Window) (d : InstanceData) (k : Nat) (h0 : w.instance_count = 0) :
    (addRepeat w d k).instance_count = min k w.max_instances ∧
    (addRepeat w d k).max_instances = w.max_instances := by
  induction k with
  | zero => exact ⟨by simpa [addRepeat] using h0, rfl⟩
  | succ k ih =>
    obtain ⟨h1, h2⟩ := ih
    show (((addRepeat w d k).add_instance d).1.instance_count = _) ∧
      (((addRepeat w d k).add_instance d).1.max_instances = _)
    unfold Window.add_instance
    split
    · next hlt =>
      constructor
      · show (addRepeat w d k).instance_count + 1 = min (k + 1) w.max_instances
        omega
      · exact h2
    · next hge =>
      constructor
      · show (addRepeat w d k).instance_count = min (k + 1) w.max_instances
        omega
      · exact h2

/-- C5: `add_instance` succeeds exactly when the live count is strictly below
the capacity; on success it writes the record at the cursor slot, increments
the count, and sets the dirty flag; on failure it returns `false` and leaves
the whole window (instances, count, dirty flag) unchanged.  Consequently,
starting from an empty pool, `max_instances` consecutive appends all succeed
and the `max_instances + 1`-th fails with the count unchanged. -/
theorem add_instance_spec (w : Window) (d : InstanceData) :
    ((w.add_instance d).2 = true ↔ w.instance_count < w.max_instances) ∧
    (w.instance_count < w.max_instances →
      ((w.add_instance d).1.instances w.instance_count = d ∧
        (w.add_instance d).1.instance_count = w.instance_count + 1 ∧
        (w.add_instance d).1.dirty = true)) ∧
    (¬w.instance_count < w.max_instances →
      ((w.add_instance d).1 = w ∧ (w.add_instance d).2 = false)) ∧
    (w.instance_count = 0 →
      ((∀ k, k < w.max_instances → ((addRepeat w d k).add_instance d).2 = true) ∧
        ((addRepeat w d w.max_instances).add_instance d).2 = false ∧
        ((addRepeat w d w.max_instances).add_instance d).1.instance_count =
          w.max_instances)) := by
  refine ⟨add_instance_true_iff w d, ?_, ?_, ?_⟩
  · intro h
    unfold Window.add_instance
    rw [if_pos h]
    exact ⟨by simp, rfl, rfl⟩
  · intro h
    unfold Window.add_instance
    rw [if_neg h]
    exact ⟨rfl, rfl⟩
  · intro h0
    obtain ⟨hc, hm⟩ := addRepeat_count w d w.max_instances h0
    refine ⟨?_, ?_, ?_⟩
    · intro k hk
      obtain ⟨hc', hm'⟩ := addRepeat_count w d k h0
      rw [add_instance_true_iff]
      omega
    · have := add_instance_true_iff (addRepeat w d w.max_instances) d
      rcases hb : ((addRepeat w d w.max_instances).add_instance d).2 with _ | _
      · rfl
      · rw [hb] at this
        have hlt := this.mp rfl
        omega
    · unfold Window.add_instance
      rw [if_neg (by omega)]
      show (addRepeat w d w.max_instances).instance_count = w.max_instances
      omega

/-- Closed witness for C5 at a fresh window of capacity 2. -/
theorem add_instance_spec_witness :
    (mkWindow 4 4 1 2).instance_count < (mkWindow 4 4 1 2).max_instances ∧
    ((mkWindow 4 4 1 2).add_instance InstanceData.zeroed).1.instance_count = 1 ∧
    ((mkWindow 4 4 1 2).add_instance InstanceData.zeroed).2 = true := by
  have h := add_instance_spec (mkWindow 4 4 1 2) InstanceData.zeroed
  refine ⟨by decide, (h.2.1 (by decide)).2.1, h.1.mpr (by decide)⟩

/-! ## Claim C9: pointer-to-cell conversion -/

/-- C9: the cursor conversion computes, per axis,
`⌊((pixel - padding / 2) / scale) / glyph_size⌋`, and with padding `(16, 16)`,
scale `(2, 2)` and glyph size `(8, 8)` a pointer at pixel `(24, 24)` maps to
grid cell `(1, 1)`.  (The source computes in `f64`; the model uses exact
rational arithmetic.) -/
theorem cursor_to_cell_spec (px py : ℚ) (padding scale : Nat × Nat) (cw ch : Nat) :
    cursor_to_cell px py padding scale cw ch =
      (⌊((px - (padding.1 : ℚ) / 2) / (scale.1 : ℚ)) / (cw : ℚ)⌋,
        ⌊((py - (padding.2 : ℚ) / 2) / (scale.2 : ℚ)) / (ch : ℚ)⌋) ∧
    cursor_to_cell 24 24 (16, 16) (2, 2) 8 8 = (1, 1) := by
  constructor
  · rfl
  · unfold cursor_to_cell
    norm_num

/-- Closed witness for C9 at the spec's concrete example. -/
theorem cursor_to_cell_spec_witness : cursor_to_cell 24 24 (16, 16) (2, 2) 8 8 = (1, 1) :=
  (cursor_to_cell_spec 24 24 (16, 16) (2, 2) 8 8).2

/-! ## Claim C6: in-bounds setters store at the flat index and dirty iff changed -/

/-- C6: for every in-bounds `(x, y)`, each setter stores the new value at flat
index `x + y * cols` of its channel buffer, and — starting from a clean
state — the dirty flag becomes true iff the stored value actually changed;
writing the already-stored value leaves the window (buffer and dirty flag)
completely untouched.  This holds for `set_char_at_bin`, for `set_char_at`
with an encodable character, for `set_fg_at`, for `set_bg_at`, and for
`set_set_at` with a value accepted by its assertion. -/
theorem setters_store_and_dirty_iff_changed (w : Window) (x y : Nat) (hx : x < w.cols)
    (hy : y < w.rows) (hd : w.dirty = false) (v : Nat) (c : Char) (b : Nat)
    (hc : encode c = some b) (f g : Col) (s : Nat) (hs : s < w.num_fonts % 256) :
    ((w.set_char_at_bin ↑x ↑y v).buffer_chars (x + y * w.cols) = v ∧
      ((w.set_char_at_bin ↑x ↑y v).dirty = true ↔ w.buffer_chars (x + y * w.cols) ≠ v) ∧
      (w.buffer_chars (x + y * w.cols) = v → w.set_char_at_bin ↑x ↑y v = w)) ∧
    ((w.set_char_at ↑x ↑y c).buffer_chars (x + y * w.cols) = b ∧
      ((w.set_char_at ↑x ↑y c).dirty = true ↔ w.buffer_chars (x + y * w.cols) ≠ b)) ∧
    ((w.set_fg_at ↑x ↑y f).buffer_colors_fg (x + y * w.cols) = f ∧
      ((w.set_fg_at ↑x ↑y f).dirty = true ↔ w.buffer_colors_fg (x + y * w.cols) ≠ f) ∧
      (w.buffer_colors_fg (x + y * w.cols) = f → w.set_fg_at ↑x ↑y f = w)) ∧
    ((w.set_bg_at ↑x ↑y g).buffer_colors_bg (x + y * w.cols) = g ∧
      ((w.set_bg_at ↑x ↑y g).dirty = true ↔ w.buffer_colors_bg (x + y * w.cols) ≠ g) ∧
      (w.buffer_colors_bg (x + y * w.cols) = g → w.set_bg_at ↑x ↑y g = w)) ∧
    (∃ w', w.set_set_at ↑x ↑y s = some w' ∧ w'.set_buffer (x + y * w.cols) = s ∧
      (w'.dirty = true ↔ w.set_buffer (x + y * w.cols) ≠ s) ∧
      (w.set_buffer (x + y * w.cols) = s → w' = w)) := by
  refine ⟨⟨?_, ?_, ?_⟩, ⟨?_, ?_⟩, ⟨?_, ?_, ?_⟩, ⟨?_, ?_, ?_⟩, ?_⟩
  · rw [set_char_at_bin_coe]
    exact setCharBinCore_self w x y v hx hy
  · rw [set_char_at_bin_coe, setCharBinCore_dirty w x y v hx hy, hd]
    simp
  · intro h
    rw [set_char_at_bin_coe]
    exact setCharBinCore_noop w x y v h
  · rw [set_char_at_coe]
    exact setCharCore_self w x y c b hc hx hy
  · rw [set_char_at_coe, setCharCore_encodable w x y c b hc,
      setCharBinCore_dirty w x y b hx hy, hd]
    simp
  · rw [set_fg_at_coe]
    exact setFgCore_self w x y f hx hy
  · rw [set_fg_at_coe, setFgCore_dirty w x y f hx hy, hd]
    simp
  · intro h
    rw [set_fg_at_coe]
    exact setFgCore_noop w x y f h
  · rw [set_bg_at_coe]
    exact setBgCore_self w x y g hx hy
  · rw [set_bg_at_coe, setBgCore_dirty w x y g hx hy, hd]
    simp
  · intro h
    rw [set_bg_at_coe]
    exact setBgCore_noop w x y g h
  · refine ⟨w.setSetCore x y s, ?_, ?_, ?_, ?_⟩
    · rw [set_set_at_coe, if_pos hs]
    · exact setSetCore_self w x y s hx hy
    · rw [setSetCore_dirty w x y s hx hy, hd]
      simp
    · intro h
      exact setSetCore_noop w x y s h

/-- Closed witness for C6 at cell `(1, 2)` of a fresh 4×4 window with 2 font
layers. -/
theorem setters_store_and_dirty_iff_changed_witness :
    (1 < (mkWindow 4 4 2 2).cols ∧ 2 < (mkWindow 4 4 2 2).rows ∧
      (mkWindow 4 4 2 2).dirty = false ∧ encode (Char.ofNat 65) = some 65 ∧
      1 < (mkWindow 4 4 2 2).num_fonts % 256) ∧
    ((mkWindow 4 4 2 2).set_char_at_bin 1 2 7).buffer_chars (1 + 2 * 4) = 7 ∧
    (((mkWindow 4 4 2 2).set_fg_at 1 2 (9, 9, 9, 9)).dirty = true ↔
      (mkWindow 4 4 2 2).buffer_colors_fg (1 + 2 * 4) ≠ (9, 9, 9, 9)) := by
  have h := setters_store_and_dirty_iff_changed (mkWindow 4 4 2 2) 1 2 (by decide) (by decide)
    rfl 7 (Char.ofNat 65) 65 (by decide) (9, 9, 9, 9) (8, 8, 8, 8) 1 (by decide)
  exact ⟨⟨by decide, by decide, rfl, by decide, by decide⟩, h.1.1, h.2.2.1.2.1⟩

/-! ## Claim C7: out-of-bounds setters are silent no-ops -/

/-- C7: for every coordinate pair outside the grid (negative on an axis, or
at least `cols`/`rows` on an axis), each per-cell setter — `set_char_at`,
`set_char_at_bin`, `set_fg_at`, `set_bg_at`, and `set_set_at` with a value
accepted by its assertion — returns the window completely unchanged (all
buffers, the instance state, and the dirty flag) and does not panic. -/
theorem setters_oob_noop (w : Window) (x y : Int) (h : OutOfBounds w x y) (c : Char) (v : Nat)
    (f g : Col) (s : Nat) (hs : s < w.num_fonts % 256) :
    w.set_char_at x y c = w ∧ w.set_char_at_bin x y v = w ∧ w.set_fg_at x y f = w ∧
      w.set_bg_at x y g = w ∧ w.set_set_at x y s = some w :=
  ⟨set_char_at_oob w x y c h, set_char_at_bin_oob w x y v h, set_fg_at_oob w x y f h,
    set_bg_at_oob w x y g h, set_set_at_oob w x y s hs h⟩

/-- Closed witness for C7 at the negative coordinate `(-1, 0)` of a fresh
4×4 window. -/
theorem setters_oob_noop_witness :
    OutOfBounds (mkWindow 4 4 1 2) (-1) 0 ∧
    (mkWindow 4 4 1 2).set_fg_at (-1) 0 (1, 2, 3, 4) = mkWindow 4 4 1 2 ∧
    (mkWindow 4 4 1 2).set_set_at (-1) 0 0 = some (mkWindow 4 4 1 2) := by
  have h : OutOfBounds (mkWindow 4 4 1 2) (-1) 0 := Or.inl (by decide)
  have hall := setters_oob_noop (mkWindow 4 4 1 2) (-1) 0 h (Char.ofNat 65) 7 (1, 2, 3, 4)
    (5, 6, 7, 8) 0 (by decide)
  exact ⟨h, hall.2.2.1, hall.2.2.2.2⟩

/-! ## Claim C10: the `set_set_at` assertion -/

/-- A window whose font atlas array has 256 layers (the wgpu default limit
`max_texture_array_layers = 256` allows exactly that many); the `k as u8`
truncation in the assertion then compares against `256 % 256 = 0`. -/
def exC10 : Window := mkWindow 4 4 256 2

/-- C10 counterexample: the claim says `set_set_at` never panics for a value
below the configured layer count.  With 256 layers the value `0` is below the
layer count, yet the call panics for every coordinate: the source asserts
`value < k as u8` with `k : u32 = 256`, and `256 as u8 = 0`. -/
theorem set_set_at_truncation_counterexample :
    (0 : Nat) < exC10.num_fonts ∧ exC10.set_set_at 0 0 0 = none :=
  ⟨by decide, rfl⟩

/-- C10 (amended): `set_set_at` runs its assertion before the coordinate
conversion and the bounds check, comparing the value against the layer count
truncated to a byte: for every coordinate pair — in or out of bounds — the
call panics iff `value ≥ num_fonts % 256`, and never panics when
`value < num_fonts % 256`.  For configurations with at most 255 font layers
(`num_fonts ≤ 255`) this is exactly the behaviour the claim describes. -/
theorem set_set_at_assert_before_bounds (w : Window) (x y : Int) (v : Nat) (hv : v < 256) :
    w.set_set_at x y v = none ↔ w.num_fonts % 256 ≤ v := by
  unfold Window.set_set_at
  split
  · next h => exact iff_of_false (by simp) (by omega)
  · next h => exact iff_of_true rfl (by omega)

/-- Closed witness for the amended C10, at an out-of-bounds coordinate. -/
theorem set_set_at_assert_before_bounds_witness :
    (3 : Nat) < 256 ∧
    ((mkWindow 4 4 2 2).set_set_at 99 99 3 = none ↔
      (mkWindow 4 4 2 2).num_fonts % 256 ≤ 3) :=
  ⟨by decide, set_set_at_assert_before_bounds (mkWindow 4 4 2 2) 99 99 3 (by decide)⟩

/-! ## Lemmas about the print loop (towards claim C4) -/

theorem coreFgOpt_shape (fg : Option Col) (x y : Nat) (w : Window) :
    SameShape w (coreFgOpt fg x y w) := by
  cases fg with
  | none => exact SameShape.srefl w
  | some f => exact setFgCore_shape w x y f

theorem coreBgOpt_shape (bg : Option Col) (x y : Nat) (w : Window) :
    SameShape w (coreBgOpt bg x y w) := by
  cases bg with
  | none => exact SameShape.srefl w
  | some b => exact setBgCore_shape w x y b

theorem coreFgOpt_chars (fg : Option Col) (x y : Nat) (w : Window) :
    (coreFgOpt fg x y w).buffer_chars = w.buffer_chars := by
  cases fg with
  | none => rfl
  | some f => exact setFgCore_chars w x y f

theorem coreFgOpt_bg (fg : Option Col) (x y : Nat) (w : Window) :
    (coreFgOpt fg x y w).buffer_colors_bg = w.buffer_colors_bg := by
  cases fg with
  | none => rfl
  | some f => exact setFgCore_bg w x y f

theorem coreFgOpt_set (fg : Option Col) (x y : Nat) (w : Window) :
    (coreFgOpt fg x y w).set_buffer = w.set_buffer := by
  cases fg with
  | none => rfl
  | some f => exact setFgCore_set w x y f

theorem coreBgOpt_chars (bg : Option Col) (x y : Nat) (w : Window) :
    (coreBgOpt bg x y w).buffer_chars = w.buffer_chars := by
  cases bg with
  | none => rfl
  | some b => exact setBgCore_chars w x y b

theorem coreBgOpt_fg (bg : Option Col) (x y : Nat) (w : Window) :
    (coreBgOpt bg x y w).buffer_colors_fg = w.buffer_colors_fg := by
  cases bg with
  | none => rfl
  | some b => exact setBgCore_fg w x y b

theorem coreBgOpt_set (bg : Option Col) (x y : Nat) (w : Window) :
    (coreBgOpt bg x y w).set_buffer = w.set_buffer := by
  cases bg with
  | none => rfl
  | some b => exact setBgCore_set w x y b

theorem coreFgOpt_self (fg : Option Col) (x y : Nat) (w : Window) (hx : x < w.cols)
    (hy : y < w.rows) (f : Col) (hf : fg = some f) :
    (coreFgOpt fg x y w).buffer_colors_fg (x + y * w.cols) = f := by
  subst hf
  exact setFgCore_self w x y f hx hy

theorem coreBgOpt_self (bg : Option Col) (x y : Nat) (w : Window) (hx : x < w.cols)
    (hy : y < w.rows) (b : Col) (hb : bg = some b) :
    (coreBgOpt bg x y w).buffer_colors_bg (x + y * w.cols) = b := by
  subst hb
  exact setBgCore_self w x y b hx hy

theorem coreFgOpt_frame (fg : Option Col) (x y : Nat) (w : Window) (k : Nat)
    (h : x < w.cols → y < w.rows → k ≠ x + y * w.cols) :
    (coreFgOpt fg x y w).buffer_colors_fg k = w.buffer_colors_fg k := by
  cases fg with
  | none => rfl
  | some f => exact setFgCore_frame w x y f k h

theorem coreBgOpt_frame (bg : Option Col) (x y : Nat) (w : Window) (k : Nat)
    (h : x < w.cols → y < w.rows → k ≠ x + y * w.cols) :
    (coreBgOpt bg x y w).buffer_colors_bg k = w.buffer_colors_bg k := by
  cases bg with
  | none => rfl
  | some b => exact setBgCore_frame w x y b k h

theorem coreSetOpt_shape (st : Option Nat) (x y : Nat) (w w' : Window)
    (h : coreSetOpt st x y w = some w') : SameShape w w' := by
  cases st with
  | none =>
    simp only [coreSetOpt, Option.some_inj] at h
    subst h
    exact SameShape.srefl w
  | some s =>
    simp only [coreSetOpt] at h
    split at h
    · rw [Option.some_inj] at h
      subst h
      exact setSetCore_shape w x y s
    · cases h

theorem coreSetOpt_some (st : Option Nat) (x y : Nat) (w : Window)
    (hst : ∀ s ∈ st, s < w.num_fonts % 256) : (coreSetOpt st x y w).isSome := by
  cases st with
  | none => rfl
  | some s =>
    simp only [coreSetOpt]
    rw [if_pos (hst s rfl)]
    rfl

theorem coreSetOpt_chars (st : Option Nat) (x y : Nat) (w w' : Window)
    (h : coreSetOpt st x y w = some w') : w'.buffer_chars = w.buffer_chars := by
  cases st with
  | none =>
    simp only [coreSetOpt, Option.some_inj] at h
    subst h
    rfl
  | some s =>
    simp only [coreSetOpt] at h
    split at h
    · rw [Option.some_inj] at h
      subst h
      exact setSetCore_chars w x y s
    · cases h

theorem coreSetOpt_fg (st : Option Nat) (x y : Nat) (w w' : Window)
    (h : coreSetOpt st x y w = some w') : w'.buffer_colors_fg = w.buffer_colors_fg := by
  cases st with
  | none =>
    simp only [coreSetOpt, Option.some_inj] at h
    subst h
    rfl
  | some s =>
    simp only [coreSetOpt] at h
    split at h
    · rw [Option.some_inj] at h
      subst h
      exact setSetCore_fg w x y s
    · cases h

theorem coreSetOpt_bg (st : Option Nat) (x y : Nat) (w w' : Window)
    (h : coreSetOpt st x y w = some w') : w'.buffer_colors_bg = w.buffer_colors_bg := by
  cases st with
  | none =>
    simp only [coreSetOpt, Option.some_inj] at h
    subst h
    rfl
  | some s =>
    simp only [coreSetOpt] at h
    split at h
    · rw [Option.some_inj] at h
      subst h
      exact setSetCore_bg w x y s
    · cases h

theorem coreSetOpt_set_self (x y s : Nat) (w w' : Window) (hx : x < w.cols) (hy : y < w.rows)
    (h : coreSetOpt (some s) x y w = some w') : w'.set_buffer (x + y * w.cols) = s := by
  simp only [coreSetOpt] at h
  split at h
  · rw [Option.some_inj] at h
    subst h
    exact setSetCore_self w x y s hx hy
  · cases h

theorem coreSetOpt_set_frame (st : Option Nat) (x y : Nat) (w w' : Window)
    (h : coreSetOpt st x y w = some w') (k : Nat)
    (hk : x < w.cols → y < w.rows → k ≠ x + y * w.cols) :
    w'.set_buffer k = w.set_buffer k := by
  cases st with
  | none =>
    simp only [coreSetOpt, Option.some_inj] at h
    subst h
    rfl
  | some s =>
    simp only [coreSetOpt] at h
    split at h
    · rw [Option.some_inj] at h
      subst h
      exact setSetCore_frame w x y s k hk
    · cases h

theorem printOne_unencodable (w : Window) (x y : Nat) (c : Char) (fg bg : Option Col)
    (st : Option Nat) (hc : encode c = none) : printOne w x y c fg bg st = some w := by
  unfold printOne
  rw [hc]

theorem printOne_oob (w : Window) (x y : Nat) (c : Char) (fg bg : Option Col)
    (st : Option Nat) (b : Nat) (hc : encode c = some b) (h : ¬(x < w.cols ∧ y < w.rows)) :
    printOne w x y c fg bg st = some w := by
  unfold printOne
  rw [hc]
  simp only [if_neg h]

theorem printOne_shape (w : Window) (x y : Nat) (c : Char) (fg bg : Option Col)
    (st : Option Nat) (w' : Window) (h : printOne w x y c fg bg st = some w') :
    SameShape w w' := by
  cases hc : encode c with
  | none =>
    rw [printOne_unencodable w x y c fg bg st hc, Option.some_inj] at h
    subst h
    exact SameShape.srefl w
  | some b =>
    by_cases hb : x < w.cols ∧ y < w.rows
    · unfold printOne at h
      simp only [hc, if_pos hb] at h
      exact (((setCharBinCore_shape w x y b).strans (coreFgOpt_shape fg x y _)).strans
        (coreBgOpt_shape bg x y _)).strans (coreSetOpt_shape st x y _ w' h)
    · rw [printOne_oob w x y c fg bg st b hc hb, Option.some_inj] at h
      subst h
      exact SameShape.srefl w

theorem printOne_some (w₀ w : Window) (x y : Nat) (c : Char) (fg bg : Option Col)
    (st : Option Nat) (hst : ∀ s ∈ st, s < w₀.num_fonts % 256) (hw : SameShape w₀ w) :
    (printOne w x y c fg bg st).isSome := by
  cases hc : encode c with
  | none =>
    rw [printOne_unencodable w x y c fg bg st hc]
    rfl
  | some b =>
    by_cases hb : x < w.cols ∧ y < w.rows
    · unfold printOne
      simp only [hc, if_pos hb]
      refine coreSetOpt_some st x y _ ?_
      intro s hs
      have hsh := ((setCharBinCore_shape w x y b).strans (coreFgOpt_shape fg x y _)).strans
        (coreBgOpt_shape bg x y _)
      rw [hsh.2.2.1, hw.2.2.1]
      exact hst s hs
    · rw [printOne_oob w x y c fg bg st b hc hb]
      rfl

theorem printOne_frame (w : Window) (x y : Nat) (c : Char) (fg bg : Option Col)
    (st : Option Nat) (w' : Window) (h : printOne w x y c fg bg st = some w') (k : Nat)
    (hk : x < w.cols → y < w.rows → k ≠ x + y * w.cols) : agreesAt w w' k := by
  cases hc : encode c with
  | none =>
    rw [printOne_unencodable w x y c fg bg st hc, Option.some_inj] at h
    subst h
    exact agreesAt.arefl w k
  | some b =>
    by_cases hb : x < w.cols ∧ y < w.rows
    · unfold printOne at h
      simp only [hc, if_pos hb] at h
      have hsh1 := setCharBinCore_shape w x y b
      have hsh2 := hsh1.strans (coreFgOpt_shape fg x y _)
      have hsh3 := hsh2.strans (coreBgOpt_shape bg x y _)
      have hag3 : agreesAt w (coreBgOpt bg x y (coreFgOpt fg x y (w.setCharBinCore x y b))) k := by
        refine ⟨?_, ?_, ?_, ?_⟩
        · rw [coreBgOpt_chars, coreFgOpt_chars]
          exact setCharBinCore_frame w x y b k hk
        · rw [coreBgOpt_fg]
          have h1 : (coreFgOpt fg x y (w.setCharBinCore x y b)).buffer_colors_fg k =
              (w.setCharBinCore x y b).buffer_colors_fg k := by
            refine coreFgOpt_frame fg x y _ k ?_
            intro hx hy
            rw [hsh1.1] at hx
            rw [hsh1.2.1] at hy
            rw [hsh1.1]
            exact hk hx hy
          rw [h1, setCharBinCore_fg]
        · have h1 : (coreBgOpt bg x y (coreFgOpt fg x y
              (w.setCharBinCore x y b))).buffer_colors_bg k =
              (coreFgOpt fg x y (w.setCharBinCore x y b)).buffer_colors_bg k := by
            refine coreBgOpt_frame bg x y _ k ?_
            intro hx hy
            rw [hsh2.1] at hx
            rw [hsh2.2.1] at hy
            rw [hsh2.1]
            exact hk hx hy
          rw [h1, coreFgOpt_bg, setCharBinCore_bg]
        · rw [coreBgOpt_set, coreFgOpt_set]
          exact congrFun (setCharBinCore_set w x y b) k
      refine hag3.atrans ⟨?_, ?_, ?_, ?_⟩
      · exact congrFun (coreSetOpt_chars st x y _ w' h) k
      · exact congrFun (coreSetOpt_fg st x y _ w' h) k
      · exact congrFun (coreSetOpt_bg st x y _ w' h) k
      · refine coreSetOpt_set_frame st x y _ w' h k ?_
        intro hx hy
        rw [hsh3.1] at hx
        rw [hsh3.2.1] at hy
        rw [hsh3.1]
        exact hk hx hy
    · rw [printOne_oob w x y c fg bg st b hc hb, Option.some_inj] at h
      subst h
      exact agreesAt.arefl w k

theorem printOne_write (w : Window) (x y : Nat) (c : Char) (fg bg : Option Col)
    (st : Option Nat) (w' : Window) (b : Nat) (hc : encode c = some b) (hx : x < w.cols)
    (hy : y < w.rows) (h : printOne w x y c fg bg st = some w') :
    w'.buffer_chars (x + y * w.cols) = b ∧
    (∀ f ∈ fg, w'.buffer_colors_fg (x + y * w.cols) = f) ∧
    (∀ g ∈ bg, w'.buffer_colors_bg (x + y * w.cols) = g) ∧
    (∀ s ∈ st, w'.set_buffer (x + y * w.cols) = s) := by
  unfold printOne at h
  simp only [hc, if_pos (show x < w.cols ∧ y < w.rows from ⟨hx, hy⟩)] at h
  have hsh1 := setCharBinCore_shape w x y b
  have hsh2 := hsh1.strans (coreFgOpt_shape fg x y _)
  have hsh3 := hsh2.strans (coreBgOpt_shape bg x y _)
  have hchars : (coreBgOpt bg x y (coreFgOpt fg x y (w.setCharBinCore x y b))).buffer_chars
      (x + y * w.cols) = b := by
    rw [coreBgOpt_chars, coreFgOpt_chars]
    exact setCharBinCore_self w x y b hx hy
  have hfg : ∀ f ∈ fg, (coreBgOpt bg x y (coreFgOpt fg x y
      (w.setCharBinCore x y b))).buffer_colors_fg (x + y * w.cols) = f := by
    intro f hf
    rw [coreBgOpt_fg]
    have := coreFgOpt_self fg x y (w.setCharBinCore x y b)
      (by rw [hsh1.1]; exact hx) (by rw [hsh1.2.1]; exact hy) f hf
    rw [hsh1.1] at this
    exact this
  have hbg : ∀ g ∈ bg, (coreBgOpt bg x y (coreFgOpt fg x y
      (w.setCharBinCore x y b))).buffer_colors_bg (x + y * w.cols) = g := by
    intro g hg
    have := coreBgOpt_self bg x y (coreFgOpt fg x y (w.setCharBinCore x y b))
      (by rw [hsh2.1]; exact hx) (by rw [hsh2.2.1]; exact hy) g hg
    rw [hsh2.1] at this
    exact this
  refine ⟨?_, ?_, ?_, ?_⟩
  · rw [congrFun (coreSetOpt_chars st x y _ w' h) (x + y * w.cols)]
    exact hchars
  · intro f hf
    rw [congrFun (coreSetOpt_fg st x y _ w' h) (x + y * w.cols)]
    exact hfg f hf
  · intro g hg
    rw [congrFun (coreSetOpt_bg st x y _ w' h) (x + y * w.cols)]
    exact hbg g hg
  · intro s hs
    rw [Option.mem_def] at hs
    subst hs
    have := coreSetOpt_set_self x y s (coreBgOpt bg x y (coreFgOpt fg x y
      (w.setCharBinCore x y b))) w'
      (by rw [hsh3.1]; exact hx) (by rw [hsh3.2.1]; exact hy) h
    rw [hsh3.1] at this
    exact this

theorem printLoop_shape (y : Nat) (fg bg : Option Col) (st : Option Nat) :
    ∀ (cs : List Char) (x : Nat) (w w' : Window),
      printLoop w x y fg bg st cs = some w' → SameShape w w' := by
  intro cs
  induction cs with
  | nil =>
    intro x w w' h
    unfold printLoop at h
    rw [Option.some_inj] at h
    subst h
    exact SameShape.srefl w
  | cons c rest ih =>
    intro x w w' h
    unfold printLoop at h
    cases hs : printOne w x y c fg bg st with
    | none => rw [hs] at h; cases h
    | some w₁ =>
      rw [hs] at h
      exact (printOne_shape w x y c fg bg st w₁ hs).strans (ih (x + 1) w₁ w' h)

theorem printLoop_frame (y : Nat) (fg bg : Option Col) (st : Option Nat) (w₀ : Window)
    (k : Nat) :
    ∀ (cs : List Char) (x : Nat) (w w' : Window), SameShape w₀ w →
      printLoop w x y fg bg st cs = some w' →
      (∀ j, j < cs.length → (x + j < w₀.cols → y < w₀.rows → k ≠ x + j + y * w₀.cols)) →
      agreesAt w w' k := by
  intro cs
  induction cs with
  | nil =>
    intro x w w' _ h _
    unfold printLoop at h
    rw [Option.some_inj] at h
    subst h
    exact agreesAt.arefl w k
  | cons c rest ih =>
    intro x w w' hw h hk
    unfold printLoop at h
    cases hs : printOne w x y c fg bg st with
    | none => rw [hs] at h; cases h
    | some w₁ =>
      rw [hs] at h
      have hsh := printOne_shape w x y c fg bg st w₁ hs
      have h1 : agreesAt w w₁ k := by
        refine printOne_frame w x y c fg bg st w₁ hs k ?_
        intro hx hy
        rw [hw.1] at hx
        rw [hw.2.1] at hy
        have h2 := hk 0 (by simp) (by omega) hy
        rw [hw.1]
        omega
      have h2 : agreesAt w₁ w' k := by
        refine ih (x + 1) w₁ w' (hw.strans hsh) h ?_
        intro j hj hxj hyj
        have h3 := hk (j + 1) (by simp only [List.length_cons]; omega) (by omega) hyj
        omega
      exact h1.atrans h2

theorem printLoop_cell (y : Nat) (fg bg : Option Col) (st : Option Nat) (w₀ : Window)
    (hst : ∀ s ∈ st, s < w₀.num_fonts % 256) :
    ∀ (cs : List Char) (x : Nat) (w : Window), SameShape w₀ w →
      ∃ w', printLoop w x y fg bg st cs = some w' ∧ SameShape w₀ w' ∧
        ∀ i (hi : i < cs.length),
          (∀ b, encode (cs.get ⟨i, hi⟩) = some b → x + i < w₀.cols → y < w₀.rows →
            (w'.buffer_chars (x + i + y * w₀.cols) = b ∧
              (∀ f ∈ fg, w'.buffer_colors_fg (x + i + y * w₀.cols) = f) ∧
              (∀ g ∈ bg, w'.buffer_colors_bg (x + i + y * w₀.cols) = g) ∧
              (∀ s ∈ st, w'.set_buffer (x + i + y * w₀.cols) = s))) ∧
          (encode (cs.get ⟨i, hi⟩) = none → agreesAt w w' (x + i + y * w₀.cols)) ∧
          ((w₀.cols ≤ x + i ∨ w₀.rows ≤ y) → agreesAt w w' (x + i + y * w₀.cols)) := by
  intro cs
  induction cs with
  | nil =>
    intro x w hw
    exact ⟨w, rfl, hw, fun i hi => absurd hi (by simp)⟩
  | cons c rest ih =>
    intro x w hw
    cases hs : printOne w x y c fg bg st with
    | none =>
      have := printOne_some w₀ w x y c fg bg st hst hw
      rw [hs] at this
      cases this
    | some w₁ =>
      have hsh := printOne_shape w x y c fg bg st w₁ hs
      obtain ⟨w', h1, h2, h3⟩ := ih (x + 1) w₁ (hw.strans hsh)
      refine ⟨w', by unfold printLoop; rw [hs]; exact h1, h2, ?_⟩
      intro i hi
      cases i with
      | zero =>
        have hframe : agreesAt w₁ w' (x + 0 + y * w₀.cols) := by
          refine printLoop_frame y fg bg st w₀ (x + 0 + y * w₀.cols) rest (x + 1) w₁ w'
            (hw.strans hsh) h1 ?_
          intro j hj hxj hyj
          omega
        refine ⟨?_, ?_, ?_⟩
        · intro b hb hxlt hylt
          have hxw : x < w.cols := by rw [hw.1]; omega
          have hyw : y < w.rows := by rw [hw.2.1]; omega
          have hwrote := printOne_write w x y c fg bg st w₁ b hb hxw hyw hs
          have hidx : x + y * w.cols = x + 0 + y * w₀.cols := by
            rw [hw.1]
            omega
          refine ⟨?_, ?_, ?_, ?_⟩
          · rw [hframe.1, ← hidx]
            exact hwrote.1
          · intro f hf
            rw [hframe.2.1, ← hidx]
            exact hwrote.2.1 f hf
          · intro g hg
            rw [hframe.2.2.1, ← hidx]
            exact hwrote.2.2.1 g hg
          · intro s hsm
            rw [hframe.2.2.2, ← hidx]
            exact hwrote.2.2.2 s hsm
        · intro hnone
          have hw₁ : w₁ = w :=
            (Option.some_inj.mp ((printOne_unencodable w x y c fg bg st hnone).symm.trans
              hs)).symm
          rw [← hw₁]
          exact hframe
        · intro hoob
          have hw₁ : w₁ = w := by
            cases hcc : encode c with
            | none =>
              exact (Option.some_inj.mp
                ((printOne_unencodable w x y c fg bg st hcc).symm.trans hs)).symm
            | some b =>
              refine (Option.some_inj.mp
                ((printOne_oob w x y c fg bg st b hcc ?_).symm.trans hs)).symm
              intro hcontra
              rw [hw.1] at hcontra
              rw [hw.2.1] at hcontra
              omega
          rw [← hw₁]
          exact hframe
      | succ i =>
        have hi' : i < rest.length := by
          simp only [List.length_cons] at hi
          omega
        have h4 := h3 i hi'
        have he : x + 1 + i = x + (i + 1) := by omega
        rw [he] at h4
        have hfr : agreesAt w w₁ (x + (i + 1) + y * w₀.cols) := by
          refine printOne_frame w x y c fg bg st w₁ hs _ ?_
          intro hx hy
          rw [hw.1]
          omega
        exact ⟨h4.1, fun hnone => hfr.atrans (h4.2.1 hnone),
          fun hoob => hfr.atrans (h4.2.2 hoob)⟩

theorem print_at_set_coe (w : Window) (x y : Nat) (cs : List Char) (fg bg : Option Col)
    (st : Option Nat) : w.print_at_set ↑x ↑y cs fg bg st = printLoop w x y fg bg st cs := by
  unfold Window.print_at_set
  rw [if_pos ⟨Int.natCast_nonneg x, Int.natCast_nonneg y⟩, Int.toNat_natCast,
    Int.toNat_natCast]

/-! ## Claim C4: `print_at_set` semantics -/

/-- C4: for every string and start position, `print_at_set` processes the
`i`-th character at column `x + i`, row `y`.  The resulting window `w'`
satisfies, for every index `i`:
* if the character is encodable and its cell is inside the grid, the glyph
  byte is stored at flat index `(x + i) + y * cols` and the optional fg/bg/set
  overrides are applied exactly there;
* if the character is unencodable, its column is consumed but the cell is
  completely untouched (no glyph, no overrides);
* if the cell falls outside the grid the character is skipped and the cell's
  flat index is untouched — later characters still land at `x + j` regardless.
Finally, cells of other rows or outside the printed column range are
untouched. -/
theorem print_at_set_cells (w : Window) (x y : Nat) (cs : List Char) (fg bg : Option Col)
    (st : Option Nat) (hst : ∀ s ∈ st, s < w.num_fonts % 256) :
    ∃ w', w.print_at_set ↑x ↑y cs fg bg st = some w' ∧
      (∀ i (hi : i < cs.length),
        (∀ b, encode (cs.get ⟨i, hi⟩) = some b → x + i < w.cols → y < w.rows →
          (w'.buffer_chars (x + i + y * w.cols) = b ∧
            (∀ f ∈ fg, w'.buffer_colors_fg (x + i + y * w.cols) = f) ∧
            (∀ g ∈ bg, w'.buffer_colors_bg (x + i + y * w.cols) = g) ∧
            (∀ s ∈ st, w'.set_buffer (x + i + y * w.cols) = s))) ∧
        (encode (cs.get ⟨i, hi⟩) = none → agreesAt w w' (x + i + y * w.cols)) ∧
        ((w.cols ≤ x + i ∨ w.rows ≤ y) → agreesAt w w' (x + i + y * w.cols))) ∧
      (∀ cx cy : Nat, cx < w.cols → (cy ≠ y ∨ cx < x ∨ x + cs.length ≤ cx) →
        agreesAt w w' (cx + cy * w.cols)) := by
  obtain ⟨w', h1, _, h3⟩ := printLoop_cell y fg bg st w hst cs x w (SameShape.srefl w)
  refine ⟨w', by rw [print_at_set_coe]; exact h1, h3, ?_⟩
  intro cx cy hcx hcond
  refine printLoop_frame y fg bg st w (cx + cy * w.cols) cs x w w' (SameShape.srefl w) h1 ?_
  intro j hj hxj _ hkeq
  obtain ⟨he1, he2⟩ := flat_index_inj hcx hxj hkeq
  rcases hcond with h | h | h <;> omega

/-- Closed witness for C4: printing `"A€B"` (the euro sign is not cp437) at
`(1, 1)` of a fresh 4×4 window writes `A` at column 1 and `B` at column 3 and
leaves the euro column untouched. -/
theorem print_at_set_cells_witness :
    (∀ s ∈ (none : Option Nat), s < (mkWindow 4 4 1 2).num_fonts % 256) ∧
    ∃ w', (mkWindow 4 4 1 2).print_at_set 1 1
        [Char.ofNat 65, Char.ofNat 0x20AC, Char.ofNat 66] (some (1, 2, 3, 4)) none none =
        some w' ∧
      w'.buffer_chars (1 + 0 + 1 * 4) = 65 ∧ w'.buffer_chars (1 + 2 + 1 * 4) = 66 ∧
      w'.buffer_chars (1 + 1 + 1 * 4) = (mkWindow 4 4 1 2).buffer_chars (1 + 1 + 1 * 4) ∧
      w'.buffer_colors_fg (1 + 0 + 1 * 4) = (1, 2, 3, 4) := by
  refine ⟨(fun s hs => by cases hs), ?_⟩
  obtain ⟨w', h1, h2, _⟩ := print_at_set_cells (mkWindow 4 4 1 2) 1 1
    [Char.ofNat 65, Char.ofNat 0x20AC, Char.ofNat 66] (some (1, 2, 3, 4)) none none
    (fun s hs => by cases hs)
  have hA := (h2 0 (by decide)).1 65 (by decide) (by decide) (by decide)
  have hB := (h2 2 (by decide)).1 66 (by decide) (by decide) (by decide)
  have hE := (h2 1 (by decide)).2.1 (by decide)
  exact ⟨w', h1, hA.1, hB.1, hE.1, hA.2.1 (1, 2, 3, 4) rfl⟩

/-! ## Lemmas about the per-cell body of `draw_rect` (towards claim C8) -/

theorem applyFgOpt_shape (fg : Option Col) (x y : Int) (w : Window) :
    SameShape w (applyFgOpt fg x y w) := by
  cases fg with
  | none => exact SameShape.srefl w
  | some f => exact set_fg_at_shape w x y f

theorem applyBgOpt_shape (bg : Option Col) (x y : Int) (w : Window) :
    SameShape w (applyBgOpt bg x y w) := by
  cases bg with
  | none => exact SameShape.srefl w
  | some b => exact set_bg_at_shape w x y b

theorem applyChOpt_shape (ch : Option Char) (x y : Int) (w : Window) :
    SameShape w (applyChOpt ch x y w) := by
  cases ch with
  | none => exact SameShape.srefl w
  | some c => exact set_char_at_shape w x y c

theorem applySetOpt_shape (st : Option Nat) (x y : Int) (w w' : Window)
    (h : applySetOpt st x y w = some w') : SameShape w w' := by
  cases st with
  | none =>
    simp only [applySetOpt, Option.some_inj] at h
    subst h
    exact SameShape.srefl w
  | some s =>
    simp only [applySetOpt] at h
    exact set_set_at_shape w x y s w' h

theorem applySetOpt_some (st : Option Nat) (x y : Int) (w : Window)
    (hst : ∀ s ∈ st, s < w.num_fonts % 256) : (applySetOpt st x y w).isSome := by
  cases st with
  | none => rfl
  | some s =>
    simp only [applySetOpt]
    unfold Window.set_set_at
    rw [if_pos (hst s rfl)]
    rfl

theorem applyFgOpt_chars (fg : Option Col) (x y : Int) (w : Window) :
    (applyFgOpt fg x y w).buffer_chars = w.buffer_chars := by
  cases fg with
  | none => rfl
  | some f => exact set_fg_at_chars w x y f

theorem applyFgOpt_bg (fg : Option Col) (x y : Int) (w : Window) :
    (applyFgOpt fg x y w).buffer_colors_bg = w.buffer_colors_bg := by
  cases fg with
  | none => rfl
  | some f => exact set_fg_at_bg w x y f

theorem applyFgOpt_set (fg : Option Col) (x y : Int) (w : Window) :
    (applyFgOpt fg x y w).set_buffer = w.set_buffer := by
  cases fg with
  | none => rfl
  | some f => exact set_fg_at_set w x y f

theorem applyBgOpt_chars (bg : Option Col) (x y : Int) (w : Window) :
    (applyBgOpt bg x y w).buffer_chars = w.buffer_chars := by
  cases bg with
  | none => rfl
  | some b => exact set_bg_at_chars w x y b

theorem applyBgOpt_fg (bg : Option Col) (x y : Int) (w : Window) :
    (applyBgOpt bg x y w).buffer_colors_fg = w.buffer_colors_fg := by
  cases bg with
  | none => rfl
  | some b => exact set_bg_at_fg w x y b

theorem applyBgOpt_set (bg : Option Col) (x y : Int) (w : Window) :
    (applyBgOpt bg x y w).set_buffer = w.set_buffer := by
  cases bg with
  | none => rfl
  | some b => exact set_bg_at_set w x y b

theorem applyChOpt_fg (ch : Option Char) (x y : Int) (w : Window) :
    (applyChOpt ch x y w).buffer_colors_fg = w.buffer_colors_fg := by
  cases ch with
  | none => rfl
  | some c => exact set_char_at_fg w x y c

theorem applyChOpt_bg (ch : Option Char) (x y : Int) (w : Window) :
    (applyChOpt ch x y w).buffer_colors_bg = w.buffer_colors_bg := by
  cases ch with
  | none => rfl
  | some c => exact set_char_at_bg w x y c

theorem applyChOpt_set (ch : Option Char) (x y : Int) (w : Window) :
    (applyChOpt ch x y w).set_buffer = w.set_buffer := by
  cases ch with
  | none => rfl
  | some c => exact set_char_at_set w x y c

theorem applySetOpt_chars (st : Option Nat) (x y : Int) (w w' : Window)
    (h : applySetOpt st x y w = some w') : w'.buffer_chars = w.buffer_chars := by
  cases st with
  | none =>
    simp only [applySetOpt, Option.some_inj] at h
    subst h
    rfl
  | some s =>
    simp only [applySetOpt] at h
    exact set_set_at_chars w x y s w' h

theorem applySetOpt_fg (st : Option Nat) (x y : Int) (w w' : Window)
    (h : applySetOpt st x y w = some w') : w'.buffer_colors_fg = w.buffer_colors_fg := by
  cases st with
  | none =>
    simp only [applySetOpt, Option.some_inj] at h
    subst h
    rfl
  | some s =>
    simp only [applySetOpt] at h
    exact set_set_at_fg w x y s w' h

theorem applySetOpt_bg (st : Option Nat) (x y : Int) (w w' : Window)
    (h : applySetOpt st x y w = some w') : w'.buffer_colors_bg = w.buffer_colors_bg := by
  cases st with
  | none =>
    simp only [applySetOpt, Option.some_inj] at h
    subst h
    rfl
  | some s =>
    simp only [applySetOpt] at h
    exact set_set_at_bg w x y s w' h

theorem applyFgOpt_agrees (fg : Option Col) (x y : Int) (w : Window) (cx cy : Nat)
    (hcx : cx < w.cols) (hne : (x, y) ≠ ((cx : Int), (cy : Int))) :
    agreesAt w (applyFgOpt fg x y w) (cx + cy * w.cols) := by
  cases fg with
  | none => exact agreesAt.arefl w _
  | some f => exact set_fg_at_agrees w x y f cx cy hcx hne

theorem applyBgOpt_agrees (bg : Option Col) (x y : Int) (w : Window) (cx cy : Nat)
    (hcx : cx < w.cols) (hne : (x, y) ≠ ((cx : Int), (cy : Int))) :
    agreesAt w (applyBgOpt bg x y w) (cx + cy * w.cols) := by
  cases bg with
  | none => exact agreesAt.arefl w _
  | some b => exact set_bg_at_agrees w x y b cx cy hcx hne

theorem applyChOpt_agrees (ch : Option Char) (x y : Int) (w : Window) (cx cy : Nat)
    (hcx : cx < w.cols) (hne : (x, y) ≠ ((cx : Int), (cy : Int))) :
    agreesAt w (applyChOpt ch x y w) (cx + cy * w.cols) := by
  cases ch with
  | none => exact agreesAt.arefl w _
  | some c => exact set_char_at_agrees w x y c cx cy hcx hne

theorem applySetOpt_agrees (st : Option Nat) (x y : Int) (w w' : Window)
    (h : applySetOpt st x y w = some w') (cx cy : Nat)
    (hcx : cx < w.cols) (hne : (x, y) ≠ ((cx : Int), (cy : Int))) :
    agreesAt w w' (cx + cy * w.cols) := by
  cases st with
  | none =>
    simp only [applySetOpt, Option.some_inj] at h
    subst h
    exact agreesAt.arefl w _
  | some s =>
    simp only [applySetOpt] at h
    exact set_set_at_agrees w x y s w' h cx cy hcx hne

theorem applySetOpt_set_self (s : Nat) (cx cy : Nat) (w w' : Window) (hcx : cx < w.cols)
    (hcy : cy < w.rows) (h : applySetOpt (some s) ↑cx ↑cy w = some w') :
    w'.set_buffer (cx + cy * w.cols) = s := by
  simp only [applySetOpt, set_set_at_coe] at h
  split at h
  · rw [Option.some_inj] at h
    subst h
    exact setSetCore_self w cx cy s hcx hcy
  · cases h

theorem drawRectCell_shape (fg bg : Option Col) (ch : Option Char) (st : Option Nat)
    (w w' : Window) (p : Int × Int) (h : drawRectCell fg bg ch st w p = some w') :
    SameShape w w' := by
  obtain ⟨a, b⟩ := p
  unfold drawRectCell at h
  exact (((applyFgOpt_shape fg a b w).strans (applyBgOpt_shape bg a b _)).strans
    (applyChOpt_shape ch a b _)).strans (applySetOpt_shape st a b _ w' h)

theorem drawRectCell_some (w₀ : Window) (fg bg : Option Col) (ch : Option Char)
    (st : Option Nat) (hst : ∀ s ∈ st, s < w₀.num_fonts % 256) (w : Window) (p : Int × Int)
    (hw : SameShape w₀ w) : (drawRectCell fg bg ch st w p).isSome := by
  obtain ⟨a, b⟩ := p
  unfold drawRectCell
  refine applySetOpt_some st a b _ ?_
  intro s hs
  have hsh := ((applyFgOpt_shape fg a b w).strans (applyBgOpt_shape bg a b _)).strans
    (applyChOpt_shape ch a b _)
  rw [hsh.2.2.1, hw.2.2.1]
  exact hst s hs

theorem drawRectCell_agrees (fg bg : Option Col) (ch : Option Char) (st : Option Nat)
    (w w' : Window) (p : Int × Int) (cx cy : Nat) (hcx : cx < w.cols)
    (hne : p ≠ ((cx : Int), (cy : Int))) (h : drawRectCell fg bg ch st w p = some w') :
    agreesAt w w' (cx + cy * w.cols) := by
  obtain ⟨a, b⟩ := p
  unfold drawRectCell at h
  have hsh1 := applyFgOpt_shape fg a b w
  have hsh2 := hsh1.strans (applyBgOpt_shape bg a b _)
  have hsh3 := hsh2.strans (applyChOpt_shape ch a b _)
  have a1 := applyFgOpt_agrees fg a b w cx cy hcx hne
  have a2 := applyBgOpt_agrees bg a b _ cx cy (by rw [hsh1.1]; exact hcx) hne
  rw [hsh1.1] at a2
  have a3 := applyChOpt_agrees ch a b _ cx cy (by rw [hsh2.1]; exact hcx) hne
  rw [hsh2.1] at a3
  have a4 := applySetOpt_agrees st a b _ w' h cx cy (by rw [hsh3.1]; exact hcx) hne
  rw [hsh3.1] at a4
  exact ((a1.atrans a2).atrans a3).atrans a4

theorem drawRectCell_write (fg bg : Option Col) (ch : Option Char) (st : Option Nat)
    (w w' : Window) (cx cy : Nat) (hcx : cx < w.cols) (hcy : cy < w.rows)
    (h : drawRectCell fg bg ch st w ((cx : Int), (cy : Int)) = some w') :
    (∀ f ∈ fg, w'.buffer_colors_fg (cx + cy * w.cols) = f) ∧
    (∀ g ∈ bg, w'.buffer_colors_bg (cx + cy * w.cols) = g) ∧
    (∀ c ∈ ch, ∀ b, encode c = some b → w'.buffer_chars (cx + cy * w.cols) = b) ∧
    (∀ s ∈ st, w'.set_buffer (cx + cy * w.cols) = s) := by
  unfold drawRectCell at h
  have hsh1 := applyFgOpt_shape fg (↑cx) (↑cy) w
  have hsh2 := hsh1.strans (applyBgOpt_shape bg (↑cx) (↑cy) _)
  have hsh3 := hsh2.strans (applyChOpt_shape ch (↑cx) (↑cy) _)
  refine ⟨?_, ?_, ?_, ?_⟩
  · intro f hf
    rw [Option.mem_def] at hf
    subst hf
    rw [congrFun (applySetOpt_fg st (↑cx) (↑cy) _ w' h) _,
      congrFun (applyChOpt_fg ch (↑cx) (↑cy) _) _, congrFun (applyBgOpt_fg bg (↑cx) (↑cy) _) _]
    show (w.set_fg_at ↑cx ↑cy f).buffer_colors_fg (cx + cy * w.cols) = f
    rw [set_fg_at_coe]
    exact setFgCore_self w cx cy f hcx hcy
  · intro g hg
    rw [Option.mem_def] at hg
    subst hg
    rw [congrFun (applySetOpt_bg st (↑cx) (↑cy) _ w' h) _,
      congrFun (applyChOpt_bg ch (↑cx) (↑cy) _) _]
    show ((applyFgOpt fg ↑cx ↑cy w).set_bg_at ↑cx ↑cy g).buffer_colors_bg
      (cx + cy * w.cols) = g
    rw [set_bg_at_coe]
    have := setBgCore_self (applyFgOpt fg ↑cx ↑cy w) cx cy g
      (by rw [hsh1.1]; exact hcx) (by rw [hsh1.2.1]; exact hcy)
    rw [hsh1.1] at this
    exact this
  · intro c hc b hb
    rw [Option.mem_def] at hc
    subst hc
    rw [congrFun (applySetOpt_chars st (↑cx) (↑cy) _ w' h) _]
    show ((applyBgOpt bg ↑cx ↑cy (applyFgOpt fg ↑cx ↑cy w)).set_char_at ↑cx
      ↑cy c).buffer_chars (cx + cy * w.cols) = b
    rw [set_char_at_coe, setCharCore_encodable _ cx cy c b hb]
    have := setCharBinCore_self (applyBgOpt bg ↑cx ↑cy (applyFgOpt fg ↑cx ↑cy w)) cx cy b
      (by rw [hsh2.1]; exact hcx) (by rw [hsh2.2.1]; exact hcy)
    rw [hsh2.1] at this
    exact this
  · intro s hsm
    rw [Option.mem_def] at hsm
    subst hsm
    have := applySetOpt_set_self s cx cy
      (applyChOpt ch ↑cx ↑cy (applyBgOpt bg ↑cx ↑cy (applyFgOpt fg ↑cx ↑cy w))) w'
      (by rw [hsh3.1]; exact hcx) (by rw [hsh3.2.1]; exact hcy) h
    rw [hsh3.1] at this
    exact this

/-! ## The perimeter of an unfilled rectangle -/

/-- The cells the spec describes for an unfilled `draw_rect`: every cell of
the top row `y` and bottom row `y + height - 1` over the `x`-range, and every
cell of the left column `x` and right column `x + width - 1` over the
`y`-range. -/
def onPerimeter (x y width height px py : Int) : Prop :=
  (x ≤ px ∧ px < x + width ∧ (py = y ∨ py = y + height - 1)) ∨
    (y ≤ py ∧ py < y + height ∧ (px = x ∨ px = x + width - 1))

instance (x y width height px py : Int) : Decidable (onPerimeter x y width height px py) := by
  unfold onPerimeter
  infer_instance

/-- Membership in the unfilled position list is exactly the perimeter
predicate. -/
theorem mem_rect_positions (x y width height a b : Int) :
    ((a, b) ∈ tbPositions x y (y + height - 1) width.toNat ++
        lrPositions x (x + width - 1) y height.toNat) ↔
      onPerimeter x y width height a b := by
  rw [List.mem_append, mem_tbPositions, mem_lrPositions]
  unfold onPerimeter
  constructor
  · rintro (⟨⟨i, hi, rfl⟩, hb⟩ | ⟨⟨j, hj, rfl⟩, ha⟩)
    · exact Or.inl ⟨by omega, by omega, by omega⟩
    · exact Or.inr ⟨by omega, by omega, by omega⟩
  · rintro (⟨h1, h2, h3⟩ | ⟨h1, h2, h3⟩)
    · refine Or.inl ⟨⟨(a - x).toNat, by omega, by omega⟩, by omega⟩
    · refine Or.inr ⟨⟨(b - y).toNat, by omega, by omega⟩, by omega⟩

/-! ## Claim C8: unfilled `draw_rect` touches exactly the perimeter -/

/-- C8: `draw_rect` with `filled = false` applies the given optional fields to
exactly the perimeter cells of the `width × height` rectangle at `(x, y)` —
the top and bottom rows over the `x`-range and the left and right columns
over the `y`-range — and leaves every other in-grid cell (in particular every
interior cell) untouched in all four channels.  For the 5×3 instance of the
spec there are exactly 12 perimeter cells and 3 interior cells. -/
theorem draw_rect_unfilled_perimeter (w : Window) (x y width height : Int)
    (fg bg : Option Col) (ch : Option Char) (st : Option Nat)
    (hst : ∀ s ∈ st, s < w.num_fonts % 256) :
    (∃ w', w.draw_rect x y width height false fg bg ch st = some w' ∧
      ∀ cx cy : Nat, cx < w.cols → cy < w.rows →
        (onPerimeter x y width height ↑cx ↑cy →
          ((∀ f ∈ fg, w'.buffer_colors_fg (cx + cy * w.cols) = f) ∧
            (∀ g ∈ bg, w'.buffer_colors_bg (cx + cy * w.cols) = g) ∧
            (∀ c ∈ ch, ∀ b, encode c = some b → w'.buffer_chars (cx + cy * w.cols) = b) ∧
            (∀ s ∈ st, w'.set_buffer (cx + cy * w.cols) = s))) ∧
        (¬onPerimeter x y width height ↑cx ↑cy → agreesAt w w' (cx + cy * w.cols))) ∧
    ((Finset.range 5 ×ˢ Finset.range 3).filter
        (fun p => onPerimeter 0 0 5 3 ↑p.1 ↑p.2)).card = 12 ∧
    ((Finset.range 5 ×ˢ Finset.range 3).filter
        (fun p => ¬onPerimeter 0 0 5 3 ↑p.1 ↑p.2)).card = 3 := by
  refine ⟨?_, by decide, by decide⟩
  have hshape : ∀ w₁ p w₂, drawRectCell fg bg ch st w₁ p = some w₂ → SameShape w₁ w₂ :=
    fun w₁ p w₂ h => drawRectCell_shape fg bg ch st w₁ w₂ p h
  have hsome : ∀ w₁ p, SameShape w w₁ → (drawRectCell fg bg ch st w₁ p).isSome :=
    fun w₁ p hw₁ => drawRectCell_some w fg bg ch st hst w₁ p hw₁
  obtain ⟨w', hw', _⟩ := foldCells_some (drawRectCell fg bg ch st) w hshape hsome
    (tbPositions x y (y + height - 1) width.toNat ++
      lrPositions x (x + width - 1) y height.toNat) w (SameShape.srefl w)
  refine ⟨w', ?_, ?_⟩
  · unfold Window.draw_rect
    rw [if_neg (by simp)]
    exact hw'
  · intro cx cy hcx hcy
    constructor
    · intro hper
      have hP : ∀ wa wb,
          ((∀ f ∈ fg, wa.buffer_colors_fg (cx + cy * w.cols) = f) ∧
            (∀ g ∈ bg, wa.buffer_colors_bg (cx + cy * w.cols) = g) ∧
            (∀ c ∈ ch, ∀ b, encode c = some b → wa.buffer_chars (cx + cy * w.cols) = b) ∧
            (∀ s ∈ st, wa.set_buffer (cx + cy * w.cols) = s)) →
          agreesAt wa wb (cx + cy * w.cols) →
          ((∀ f ∈ fg, wb.buffer_colors_fg (cx + cy * w.cols) = f) ∧
            (∀ g ∈ bg, wb.buffer_colors_bg (cx + cy * w.cols) = g) ∧
            (∀ c ∈ ch, ∀ b, encode c = some b → wb.buffer_chars (cx + cy * w.cols) = b) ∧
            (∀ s ∈ st, wb.set_buffer (cx + cy * w.cols) = s)) := by
        intro wa wb hpa hag
        refine ⟨?_, ?_, ?_, ?_⟩
        · intro f hf
          rw [hag.2.1]
          exact hpa.1 f hf
        · intro g hg
          rw [hag.2.2.1]
          exact hpa.2.1 g hg
        · intro c hc b hb
          rw [hag.1]
          exact hpa.2.2.1 c hc b hb
        · intro s hs
          rw [hag.2.2.2]
          exact hpa.2.2.2 s hs
      have hest : ∀ wa wb, SameShape w wa →
          drawRectCell fg bg ch st wa ((cx : Int), (cy : Int)) = some wb →
          ((∀ f ∈ fg, wb.buffer_colors_fg (cx + cy * w.cols) = f) ∧
            (∀ g ∈ bg, wb.buffer_colors_bg (cx + cy * w.cols) = g) ∧
            (∀ c ∈ ch, ∀ b, encode c = some b → wb.buffer_chars (cx + cy * w.cols) = b) ∧
            (∀ s ∈ st, wb.set_buffer (cx + cy * w.cols) = s)) := by
        intro wa wb hwa hstep
        have := drawRectCell_write fg bg ch st wa wb cx cy
          (by rw [hwa.1]; exact hcx) (by rw [hwa.2.1]; exact hcy) hstep
        rw [hwa.1] at this
        exact this
      have hother : ∀ wa p wb, SameShape w wa → p ≠ ((cx : Int), (cy : Int)) →
          drawRectCell fg bg ch st wa p = some wb → agreesAt wa wb (cx + cy * w.cols) := by
        intro wa p wb hwa hne hstep
        have := drawRectCell_agrees fg bg ch st wa wb p cx cy (by rw [hwa.1]; exact hcx)
          hne hstep
        rw [hwa.1] at this
        exact this
      obtain ⟨w₂, hw₂, hPf, _⟩ := foldCells_establish (drawRectCell fg bg ch st) w
        (cx + cy * w.cols)
        (fun wf => (∀ f ∈ fg, wf.buffer_colors_fg (cx + cy * w.cols) = f) ∧
          (∀ g ∈ bg, wf.buffer_colors_bg (cx + cy * w.cols) = g) ∧
          (∀ c ∈ ch, ∀ b, encode c = some b → wf.buffer_chars (cx + cy * w.cols) = b) ∧
          (∀ s ∈ st, wf.set_buffer (cx + cy * w.cols) = s))
        ((cx : Int), (cy : Int)) hshape hsome hP hest hother
        (tbPositions x y (y + height - 1) width.toNat ++
          lrPositions x (x + width - 1) y height.toNat) w (SameShape.srefl w)
        ((mem_rect_positions x y width height ↑cx ↑cy).mpr hper)
      obtain rfl : w₂ = w' := Option.some_inj.mp (hw₂.symm.trans hw')
      exact hPf
    · intro hnper
      refine foldCells_frame (drawRectCell fg bg ch st) w (cx + cy * w.cols) hshape _ w w'
        ?_ (SameShape.srefl w) hw'
      intro wa p wb hwa hpmem hstep
      obtain ⟨a, b⟩ := p
      have hper' : onPerimeter x y width height a b :=
        (mem_rect_positions x y width height a b).mp hpmem
      have hne : ((a, b) : Int × Int) ≠ ((cx : Int), (cy : Int)) := by
        intro heq
        rw [Prod.mk.injEq] at heq
        obtain ⟨rfl, rfl⟩ := heq
        exact hnper hper'
      have := drawRectCell_agrees fg bg ch st wa wb (a, b) cx cy (by rw [hwa.1]; exact hcx)
        hne hstep
      rw [hwa.1] at this
      exact this

/-- Closed witness for C8: an unfilled 5×3 rectangle at the origin of a fresh
8×8 window paints the fg of the perimeter cell `(1, 0)` and leaves the
interior cell `(2, 1)` untouched. -/
theorem draw_rect_unfilled_perimeter_witness :
    (∀ s ∈ (none : Option Nat), s < (mkWindow 8 8 1 2).num_fonts % 256) ∧
    ∃ w', (mkWindow 8 8 1 2).draw_rect 0 0 5 3 false (some (1, 2, 3, 4)) none none none =
        some w' ∧
      w'.buffer_colors_fg (1 + 0 * 8) = (1, 2, 3, 4) ∧
      w'.buffer_colors_fg (2 + 1 * 8) = (mkWindow 8 8 1 2).buffer_colors_fg (2 + 1 * 8) := by
  refine ⟨(fun s hs => by cases hs), ?_⟩
  obtain ⟨⟨w', h1, h2⟩, _, _⟩ := draw_rect_unfilled_perimeter (mkWindow 8 8 1 2) 0 0 5 3
    (some (1, 2, 3, 4)) none none none (fun s hs => by cases hs)
  have hperim := (h2 1 0 (by decide) (by decide)).1 (by decide)
  have hint := (h2 2 1 (by decide) (by decide)).2 (by decide)
  exact ⟨w', h1, hperim.1 (1, 2, 3, 4) rfl, hint.2.1⟩

/-! ## Lemmas about applying a snapshot (towards claim C2) -/

theorem clear_shape (w : Window) : SameShape w w.clear :=
  ⟨rfl, rfl, rfl, rfl⟩

theorem gridPositions_ht_zero (x y : Int) (n : Nat) : gridPositions x y 0 n = [] := by
  induction n generalizing x with
  | zero => rfl
  | succ n ih => simp [gridPositions, colPositions, ih]

theorem mem_loopList {α : Type} (g : Nat → α) (lo n : Nat) (v : α)
    (h : v ∈ loopList g lo n) : ∃ j, j < n ∧ v = g (lo + j) := by
  induction n generalizing lo with
  | zero => cases h
  | succ n ih =>
    rw [loopList, List.mem_cons] at h
    rcases h with rfl | h
    · exact ⟨0, by omega, by rw [Nat.add_zero]⟩
    · obtain ⟨j, hj, hv⟩ := ih (lo + 1) h
      refine ⟨j + 1, by omega, ?_⟩
      rw [hv]
      congr 1
      omega

theorem mem_flatGrid {α : Type} (f : Nat → Nat → α) (y ht x n : Nat) (v : α)
    (h : v ∈ flatGrid f y ht x n) : ∃ i, i < n ∧ ∃ j, j < ht ∧ v = f (x + i) (y + j) := by
  induction n generalizing x with
  | zero => cases h
  | succ n ih =>
    rw [flatGrid, List.mem_append] at h
    rcases h with h | h
    · obtain ⟨j, hj, hv⟩ := mem_loopList (f x) y ht v h
      refine ⟨0, by omega, j, hj, ?_⟩
      rw [hv, Nat.add_zero]
    · obtain ⟨i, hi, j, hj, hv⟩ := ih (x + 1) h
      refine ⟨i + 1, by omega, j, hj, ?_⟩
      have e : x + 1 + i = x + (i + 1) := by omega
      rw [hv, e]

theorem snapIdx_lt (wd ht : Nat) (dx dy : Int) (h1 : dx < (wd : Int)) (h2 : dy < (ht : Int))
    (hpos : 0 < wd * ht) : (dx * (ht : Int) + dy).toNat < wd * ht := by
  have hh : (0 : Int) ≤ (ht : Int) := Int.natCast_nonneg ht
  have h3 : dx * (ht : Int) ≤ ((wd : Int) - 1) * (ht : Int) :=
    mul_le_mul_of_nonneg_right (by omega) hh
  have h4 : ((wd : Int) - 1) * (ht : Int) = (wd : Int) * (ht : Int) - (ht : Int) := by ring
  have h6 : (wd : Int) * (ht : Int) = ((wd * ht : Nat) : Int) := by push_cast; ring
  omega

theorem snapIdx_eq (x y cx cy ht : Nat) (hx : x ≤ cx) (hy : y ≤ cy) :
    (((cx : Int) - (x : Int)) * (ht : Int) + ((cy : Int) - (y : Int))).toNat =
      (cx - x) * ht + (cy - y) := by
  have e1 : (cx : Int) - (x : Int) = ((cx - x : Nat) : Int) := by omega
  have e2 : (cy : Int) - (y : Int) = ((cy - y : Nat) : Int) := by omega
  rw [e1, e2, ← Int.natCast_mul, ← Int.natCast_add, Int.toNat_natCast]

theorem snapWrite_shape (tv sv : Nat) (fv bv : Col) (x y : Int) (w wb : Window)
    (h : snapWrite tv sv fv bv x y w = some wb) : SameShape w wb := by
  unfold snapWrite at h
  split at h
  · cases h
  · next w2 hw2 =>
    rw [Option.some_inj] at h
    subst h
    exact (((set_char_at_bin_shape w x y tv).strans
      (set_set_at_shape _ x y sv w2 hw2)).strans
      (set_fg_at_shape w2 x y fv)).strans (set_bg_at_shape _ x y bv)

theorem snapWrite_some (tv sv : Nat) (fv bv : Col) (x y : Int) (w : Window)
    (hsv : sv < w.num_fonts % 256) : (snapWrite tv sv fv bv x y w).isSome := by
  unfold snapWrite
  have hw2 : ∃ w2, (w.set_char_at_bin x y tv).set_set_at x y sv = some w2 := by
    unfold Window.set_set_at
    rw [if_pos (by rw [(set_char_at_bin_shape w x y tv).2.2.1]; exact hsv)]
    exact ⟨_, rfl⟩
  obtain ⟨w2, hw2⟩ := hw2
  rw [hw2]
  rfl

theorem snapWrite_agrees (tv sv : Nat) (fv bv : Col) (x y : Int) (w wb : Window)
    (h : snapWrite tv sv fv bv x y w = some wb) (cx cy : Nat) (hcx : cx < w.cols)
    (hne : (x, y) ≠ ((cx : Int), (cy : Int))) : agreesAt w wb (cx + cy * w.cols) := by
  unfold snapWrite at h
  split at h
  · cases h
  · next w2 hw2 =>
    rw [Option.some_inj] at h
    subst h
    have hsh1 := set_char_at_bin_shape w x y tv
    have hsh2 := hsh1.strans (set_set_at_shape _ x y sv w2 hw2)
    have hsh3 := hsh2.strans (set_fg_at_shape w2 x y fv)
    have a1 := set_char_at_bin_agrees w x y tv cx cy hcx hne
    have a2 := set_set_at_agrees _ x y sv w2 hw2 cx cy (by rw [hsh1.1]; exact hcx) hne
    rw [hsh1.1] at a2
    have a3 := set_fg_at_agrees w2 x y fv cx cy (by rw [hsh2.1]; exact hcx) hne
    rw [hsh2.1] at a3
    have a4 := set_bg_at_agrees _ x y bv cx cy (by rw [hsh3.1]; exact hcx) hne
    rw [hsh3.1] at a4
    exact ((a1.atrans a2).atrans a3).atrans a4

theorem snapWrite_write (tv sv : Nat) (fv bv : Col) (cx cy : Nat) (w wb : Window)
    (hcx : cx < w.cols) (hcy : cy < w.rows)
    (h : snapWrite tv sv fv bv (↑cx) (↑cy) w = some wb) :
    wb.buffer_chars (cx + cy * w.cols) = tv ∧
    wb.buffer_colors_fg (cx + cy * w.cols) = fv ∧
    wb.buffer_colors_bg (cx + cy * w.cols) = bv ∧
    wb.set_buffer (cx + cy * w.cols) = sv := by
  unfold snapWrite at h
  split at h
  · cases h
  · next w2 hw2 =>
    rw [Option.some_inj] at h
    subst h
    have hsh1 := set_char_at_bin_shape w (↑cx) (↑cy) tv
    have hsh2 := hsh1.strans (set_set_at_shape _ (↑cx) (↑cy) sv w2 hw2)
    have hsh3 := hsh2.strans (set_fg_at_shape w2 (↑cx) (↑cy) fv)
    refine ⟨?_, ?_, ?_, ?_⟩
    · rw [congrFun (set_bg_at_chars (w2.set_fg_at ↑cx ↑cy fv) (↑cx) (↑cy) bv) _,
        congrFun (set_fg_at_chars w2 (↑cx) (↑cy) fv) _,
        congrFun (set_set_at_chars _ (↑cx) (↑cy) sv w2 hw2) _, set_char_at_bin_coe]
      exact setCharBinCore_self w cx cy tv hcx hcy
    · rw [congrFun (set_bg_at_fg (w2.set_fg_at ↑cx ↑cy fv) (↑cx) (↑cy) bv) _,
        set_fg_at_coe]
      have := setFgCore_self w2 cx cy fv (by rw [hsh2.1]; exact hcx)
        (by rw [hsh2.2.1]; exact hcy)
      rw [hsh2.1] at this
      exact this
    · rw [set_bg_at_coe]
      have := setBgCore_self (w2.set_fg_at ↑cx ↑cy fv) cx cy bv
        (by rw [hsh3.1]; exact hcx) (by rw [hsh3.2.1]; exact hcy)
      rw [hsh3.1] at this
      exact this
    · rw [congrFun (set_bg_at_set (w2.set_fg_at ↑cx ↑cy fv) (↑cx) (↑cy) bv) _,
        congrFun (set_fg_at_set w2 (↑cx) (↑cy) fv) _]
      have hw2' : w2 = (w.set_char_at_bin ↑cx ↑cy tv).setSetCore cx cy sv := by
        unfold Window.set_set_at at hw2
        split at hw2
        · rw [Option.some_inj] at hw2
          rw [← hw2]
          rw [if_pos ⟨Int.natCast_nonneg cx, Int.natCast_nonneg cy⟩, Int.toNat_natCast,
            Int.toNat_natCast]
        · cases hw2
      rw [hw2']
      have := setSetCore_self (w.set_char_at_bin ↑cx ↑cy tv) cx cy sv
        (by rw [hsh1.1]; exact hcx) (by rw [hsh1.2.1]; exact hcy)
      rw [hsh1.1] at this
      exact this

theorem snapStep_shape (s : Snapshot) (ox oy : Int) (wa wb : Window) (p : Int × Int)
    (h : snapStep s ox oy wa p = some wb) : SameShape wa wb := by
  obtain ⟨a, b⟩ := p
  simp only [snapStep] at h
  split at h
  · split at h
    · exact snapWrite_shape _ _ _ _ a b wa wb h
    · cases h
  · rw [Option.some_inj] at h
    subst h
    exact SameShape.srefl wa

theorem snapStep_some (s : Snapshot) (ox oy : Int) (wa : Window)
    (hT : s.text.length = s.size.1 * s.size.2) (hS : s.set.length = s.size.1 * s.size.2)
    (hF : s.fg.length = s.size.1 * s.size.2) (hB : s.bg.length = s.size.1 * s.size.2)
    (hpos : 0 < s.size.1 * s.size.2)
    (hsv : ∀ v ∈ s.set, v < wa.num_fonts % 256) (p : Int × Int) :
    (snapStep s ox oy wa p).isSome := by
  obtain ⟨a, b⟩ := p
  simp only [snapStep]
  split
  · next hg =>
    have hidx := snapIdx_lt s.size.1 s.size.2 (a - ox) (b - oy) hg.1 hg.2 hpos
    obtain ⟨tv, htv⟩ :
        ∃ v, s.text[((a - ox) * (s.size.2 : Int) + (b - oy)).toNat]? = some v :=
      ⟨_, List.getElem?_eq_getElem (by omega)⟩
    obtain ⟨sv, hsvv⟩ :
        ∃ v, s.set[((a - ox) * (s.size.2 : Int) + (b - oy)).toNat]? = some v :=
      ⟨_, List.getElem?_eq_getElem (by omega)⟩
    obtain ⟨fv, hfv⟩ :
        ∃ v, s.fg[((a - ox) * (s.size.2 : Int) + (b - oy)).toNat]? = some v :=
      ⟨_, List.getElem?_eq_getElem (by omega)⟩
    obtain ⟨bv, hbv⟩ :
        ∃ v, s.bg[((a - ox) * (s.size.2 : Int) + (b - oy)).toNat]? = some v :=
      ⟨_, List.getElem?_eq_getElem (by omega)⟩
    rw [htv, hsvv, hfv, hbv]
    show (snapWrite tv sv fv bv a b wa).isSome
    exact snapWrite_some tv sv fv bv a b wa (hsv sv (List.getElem?_mem hsvv))
  · rfl

theorem snapStep_agrees (s : Snapshot) (ox oy : Int) (wa wb : Window) (p : Int × Int)
    (cx cy : Nat) (hcx : cx < wa.cols) (hne : p ≠ ((cx : Int), (cy : Int)))
    (h : snapStep s ox oy wa p = some wb) : agreesAt wa wb (cx + cy * wa.cols) := by
  obtain ⟨a, b⟩ := p
  simp only [snapStep] at h
  split at h
  · split at h
    · exact snapWrite_agrees _ _ _ _ a b wa wb h cx cy hcx hne
    · cases h
  · rw [Option.some_inj] at h
    subst h
    exact agreesAt.arefl wa _

theorem snapStep_est (s : Snapshot) (x y cx cy : Nat) (wa wb : Window)
    (hx1 : x ≤ cx) (hx2 : (cx : Int) - (x : Int) < (s.size.1 : Int))
    (hy1 : y ≤ cy) (hy2 : (cy : Int) - (y : Int) < (s.size.2 : Int))
    (hcx : cx < wa.cols) (hcy : cy < wa.rows) (tv sv : Nat) (fv bv : Col)
    (htv : s.text[(cx - x) * s.size.2 + (cy - y)]? = some tv)
    (hsv : s.set[(cx - x) * s.size.2 + (cy - y)]? = some sv)
    (hfv : s.fg[(cx - x) * s.size.2 + (cy - y)]? = some fv)
    (hbv : s.bg[(cx - x) * s.size.2 + (cy - y)]? = some bv)
    (h : snapStep s ↑x ↑y wa ((cx : Int), (cy : Int)) = some wb) :
    wb.buffer_chars (cx + cy * wa.cols) = tv ∧
    wb.buffer_colors_fg (cx + cy * wa.cols) = fv ∧
    wb.buffer_colors_bg (cx + cy * wa.cols) = bv ∧
    wb.set_buffer (cx + cy * wa.cols) = sv := by
  simp only [snapStep] at h
  rw [if_pos ⟨hx2, hy2⟩] at h
  rw [snapIdx_eq x y cx cy s.size.2 hx1 hy1] at h
  rw [htv, hsv, hfv, hbv] at h
  have h' : snapWrite tv sv fv bv (↑cx) (↑cy) wa = some wb := h
  exact snapWrite_write tv sv fv bv cx cy wa wb hcx hcy h'

/-- Characterization of `apply_snapshot`: applying a well-formed snapshot at
an origin whose rectangle lies inside the grid succeeds, and every cell of
the rectangle receives exactly the four snapshot entries stored for it. -/
theorem apply_snapshot_cells (w₀ : Window) (s : Snapshot)
    (hT : s.text.length = s.size.1 * s.size.2) (hS : s.set.length = s.size.1 * s.size.2)
    (hF : s.fg.length = s.size.1 * s.size.2) (hB : s.bg.length = s.size.1 * s.size.2)
    (hsv : ∀ v ∈ s.set, v < w₀.num_fonts % 256) (x y : Nat)
    (hwb : x + s.size.1 ≤ w₀.cols) (hhb : y + s.size.2 ≤ w₀.rows) :
    ∃ w', w₀.apply_snapshot s ↑x ↑y = some w' ∧
      ∀ cx cy : Nat, x ≤ cx → cx < x + s.size.1 → y ≤ cy → cy < y + s.size.2 →
        ∀ tv sv fv bv,
          s.text[(cx - x) * s.size.2 + (cy - y)]? = some tv →
          s.set[(cx - x) * s.size.2 + (cy - y)]? = some sv →
          s.fg[(cx - x) * s.size.2 + (cy - y)]? = some fv →
          s.bg[(cx - x) * s.size.2 + (cy - y)]? = some bv →
          (w'.buffer_chars (cx + cy * w₀.cols) = tv ∧
            w'.buffer_colors_fg (cx + cy * w₀.cols) = fv ∧
            w'.buffer_colors_bg (cx + cy * w₀.cols) = bv ∧
            w'.set_buffer (cx + cy * w₀.cols) = sv) := by
  by_cases h0 : s.size.1 = 0 ∨ s.size.2 = 0
  · refine ⟨w₀, ?_, ?_⟩
    · unfold Window.apply_snapshot
      rcases h0 with h0 | h0
      · rw [h0]
        rfl
      · rw [h0, gridPositions_ht_zero]
        rfl
    · intro cx cy h1 h2 h3 h4
      exfalso
      rcases h0 with h0 | h0 <;> omega
  · push_neg at h0
    have hpos : 0 < s.size.1 * s.size.2 := Nat.mul_pos (by omega) (by omega)
    have hshape : ∀ wa p wb, snapStep s ↑x ↑y wa p = some wb → SameShape wa wb :=
      fun wa p wb h => snapStep_shape s ↑x ↑y wa wb p h
    have hsome : ∀ wa p, SameShape w₀ wa → (snapStep s ↑x ↑y wa p).isSome := by
      intro wa p hwa
      refine snapStep_some s ↑x ↑y wa hT hS hF hB hpos ?_ p
      intro v hv
      rw [hwa.2.2.1]
      exact hsv v hv
    obtain ⟨w', hw', _⟩ := foldCells_some (snapStep s ↑x ↑y) w₀ hshape hsome
      (gridPositions ↑x ↑y s.size.2 s.size.1) w₀ (SameShape.srefl w₀)
    refine ⟨w', by unfold Window.apply_snapshot; exact hw', ?_⟩
    intro cx cy h1 h2 h3 h4 tv sv fv bv htv hsvv hfv hbv
    have hP : ∀ wa wb,
        (wa.buffer_chars (cx + cy * w₀.cols) = tv ∧
          wa.buffer_colors_fg (cx + cy * w₀.cols) = fv ∧
          wa.buffer_colors_bg (cx + cy * w₀.cols) = bv ∧
          wa.set_buffer (cx + cy * w₀.cols) = sv) →
        agreesAt wa wb (cx + cy * w₀.cols) →
        (wb.buffer_chars (cx + cy * w₀.cols) = tv ∧
          wb.buffer_colors_fg (cx + cy * w₀.cols) = fv ∧
          wb.buffer_colors_bg (cx + cy * w₀.cols) = bv ∧
          wb.set_buffer (cx + cy * w₀.cols) = sv) := by
      intro wa wb hpa hag
      exact ⟨hag.1.trans hpa.1, hag.2.1.trans hpa.2.1, hag.2.2.1.trans hpa.2.2.1,
        hag.2.2.2.trans hpa.2.2.2⟩
    have hest : ∀ wa wb, SameShape w₀ wa →
        snapStep s ↑x ↑y wa ((cx : Int), (cy : Int)) = some wb →
        (wb.buffer_chars (cx + cy * w₀.cols) = tv ∧
          wb.buffer_colors_fg (cx + cy * w₀.cols) = fv ∧
          wb.buffer_colors_bg (cx + cy * w₀.cols) = bv ∧
          wb.set_buffer (cx + cy * w₀.cols) = sv) := by
      intro wa wb hwa hstep
      have := snapStep_est s x y cx cy wa wb h1 (by omega) h3 (by omega)
        (by rw [hwa.1]; omega) (by rw [hwa.2.1]; omega) tv sv fv bv htv hsvv hfv hbv hstep
      rw [hwa.1] at this
      exact this
    have hother : ∀ wa p wb, SameShape w₀ wa → p ≠ ((cx : Int), (cy : Int)) →
        snapStep s ↑x ↑y wa p = some wb → agreesAt wa wb (cx + cy * w₀.cols) := by
      intro wa p wb hwa hne hstep
      have := snapStep_agrees s ↑x ↑y wa wb p cx cy (by rw [hwa.1]; omega) hne hstep
      rw [hwa.1] at this
      exact this
    obtain ⟨w₂, hw₂, hPf, _⟩ := foldCells_establish (snapStep s ↑x ↑y) w₀
      (cx + cy * w₀.cols)
      (fun wf => wf.buffer_chars (cx + cy * w₀.cols) = tv ∧
        wf.buffer_colors_fg (cx + cy * w₀.cols) = fv ∧
        wf.buffer_colors_bg (cx + cy * w₀.cols) = bv ∧
        wf.set_buffer (cx + cy * w₀.cols) = sv)
      ((cx : Int), (cy : Int)) hshape hsome hP hest hother
      (gridPositions ↑x ↑y s.size.2 s.size.1) w₀ (SameShape.srefl w₀)
      ((mem_gridPositions ↑x ↑y s.size.2 s.size.1 ↑cx ↑cy).mpr
        ⟨⟨cx - x, by omega, by omega⟩, cy - y, by omega, by omega⟩)
    obtain rfl : w₂ = w' := Option.some_inj.mp (hw₂.symm.trans hw')
    exact hPf

/-! ## Claim C2: snapshot round-trip -/

/-- C2: for every grid state whose stored font-selector values satisfy the
spec's invariant (each below the atlas layer count as the `set_set_at`
assertion compares it, i.e. below `num_fonts` truncated to a byte) and every
region accepted by `take_snapshot`, taking the snapshot, calling `clear()`,
and applying the snapshot at the same origin restores every cell inside the
region to its pre-clear glyph, fg, bg, and font-selector values. -/
theorem snapshot_round_trip (w : Window) (x y width height : Nat) (s : Snapshot)
    (hval : ∀ i, w.set_buffer i < w.num_fonts % 256)
    (hs : w.take_snapshot x y width height = some s) :
    ∃ w', (w.clear).apply_snapshot s ↑x ↑y = some w' ∧
      ∀ cx cy : Nat, x ≤ cx → cx < x + width → y ≤ cy → cy < y + height →
        (w'.buffer_chars (cx + cy * w.cols) = w.buffer_chars (cx + cy * w.cols) ∧
          w'.buffer_colors_fg (cx + cy * w.cols) = w.buffer_colors_fg (cx + cy * w.cols) ∧
          w'.buffer_colors_bg (cx + cy * w.cols) = w.buffer_colors_bg (cx + cy * w.cols) ∧
          w'.set_buffer (cx + cy * w.cols) = w.set_buffer (cx + cy * w.cols)) := by
  unfold Window.take_snapshot at hs
  split at hs
  · cases hs
  · next hbound =>
    rw [Option.some_inj] at hs
    subst hs
    obtain ⟨w', hw', hcell⟩ := apply_snapshot_cells w.clear
      { begin_ := (x, y)
        size := (width, height)
        fg := flatGrid (fun xi yi => w.buffer_colors_fg (xi + yi * w.cols)) y height x width
        bg := flatGrid (fun xi yi => w.buffer_colors_bg (xi + yi * w.cols)) y height x width
        set := flatGrid (fun xi yi => w.set_buffer (xi + yi * w.cols)) y height x width
        text := flatGrid (fun xi yi => w.buffer_chars (xi + yi * w.cols)) y height x width }
      (flatGrid_length _ y height x width) (flatGrid_length _ y height x width)
      (flatGrid_length _ y height x width) (flatGrid_length _ y height x width)
      (by
        intro v hv
        obtain ⟨i, _, j, _, hveq⟩ := mem_flatGrid _ y height x width v hv
        subst hveq
        exact hval _)
      x y (by show x + width ≤ w.cols; omega) (by show y + height ≤ w.rows; omega)
    refine ⟨w', hw', ?_⟩
    intro cx cy h1 h2 h3 h4
    have e1 : x + (cx - x) = cx := by omega
    have e2 : y + (cy - y) = cy := by omega
    have htv := flatGrid_get (fun xi yi => w.buffer_chars (xi + yi * w.cols)) y height x
      width (cx - x) (cy - y) (by omega) (by omega)
    rw [e1, e2] at htv
    have hsvv := flatGrid_get (fun xi yi => w.set_buffer (xi + yi * w.cols)) y height x
      width (cx - x) (cy - y) (by omega) (by omega)
    rw [e1, e2] at hsvv
    have hfv := flatGrid_get (fun xi yi => w.buffer_colors_fg (xi + yi * w.cols)) y height x
      width (cx - x) (cy - y) (by omega) (by omega)
    rw [e1, e2] at hfv
    have hbv := flatGrid_get (fun xi yi => w.buffer_colors_bg (xi + yi * w.cols)) y height x
      width (cx - x) (cy - y) (by omega) (by omega)
    rw [e1, e2] at hbv
    have := hcell cx cy h1 h2 h3 h4 _ _ _ _ htv hsvv hfv hbv
    exact this

/-- Concrete window for the C2 witness: a fresh 4×4 window with a nonzero
glyph at cell `(0, 0)`. -/
def exC2 : Window :=
  { mkWindow 4 4 1 2 with buffer_chars := fun i => if i = 0 then 7 else 0 }

/-- The snapshot `take_snapshot(0, 0, 1, 1)` captures on `exC2`. -/
def exC2snap : Snapshot :=
  (exC2.take_snapshot 0 0 1 1).getD ⟨(0, 0), (0, 0), [], [], [], []⟩

/-- Closed witness for C2: capture the cell `(0, 0)` of `exC2`, clear, apply
at the same origin; the glyph byte 7 is restored. -/
theorem snapshot_round_trip_witness :
    (∀ i, exC2.set_buffer i < exC2.num_fonts % 256) ∧
    exC2.take_snapshot 0 0 1 1 = some exC2snap ∧
    ∃ w', (exC2.clear).apply_snapshot exC2snap 0 0 = some w' ∧
      w'.buffer_chars (0 + 0 * exC2.cols) = exC2.buffer_chars (0 + 0 * exC2.cols) := by
  have hval : ∀ i, exC2.set_buffer i < exC2.num_fonts % 256 := by
    intro i
    show (0 : Nat) < 1 % 256
    decide
  refine ⟨hval, rfl, ?_⟩
  obtain ⟨w', hw', hcell⟩ := snapshot_round_trip exC2 0 0 1 1 exC2snap hval rfl
  exact ⟨w', hw', (hcell 0 0 (by omega) (by omega) (by omega) (by omega)).1⟩

end Yarl2
